import Mathlib

/-!
Shallow embedding of the authoritative game-state module of the vibecycle
server (the grid-based server variant).  JS numbers are modelled by ℚ (every
operation the module performs on coordinates — addition, `Math.floor`,
`Math.round`, comparison — is exact on the values that occur, so ℚ is a
faithful carrier).  Facing directions, stored by the source as radians that
are always an integer multiple of π/2, are embedded in units of π/2 as an
`Int` (so the source value `d * (π/2)` is embedded as `d`); the JS `%` on
radians becomes `Int.tmod` on quarter-turns, matching the sign behaviour of
the JS remainder operator.  JS object identity (segments are used as `Set`
members and `Map` keys by identity) is embedded by a ghost creation sequence
number `sid`, fresh for every created segment.  Randomness (`Math.random`)
is parameterized by an explicit stream of rationals in `[0, 1)`, and the
random username generator is parameterized by the produced string.
-/

/-- Game constant `GRID_SIZE = 200`. -/
def GRID_SIZE : ℚ := 200

/-- Game constant `ARENA_SIZE = GRID_SIZE / 2`. -/
def ARENA_SIZE : ℚ := GRID_SIZE / 2

/-- Game constant `MOVE_SPEED = 1` (units per frame). -/
def MOVE_SPEED : ℚ := 1

/-- Game constant `COLLISION_WIDTH = 0.2` (trail width for collision detection). -/
def COLLISION_WIDTH : ℚ := 1/5

/-- Game constant `MAX_TRAIL_LENGTH = 50`. -/
def MAX_TRAIL_LENGTH : Nat := 50

/-- Game constant `GRID_CELL_SIZE = 10`. -/
def GRID_CELL_SIZE : ℚ := 10

/-- A point of the arena plane.  The source stores `{x, z}` pairs (the
constant rendering height `y = 0.25` of player positions is omitted: the
module never computes with it). -/
structure Point where
  x : ℚ
  z : ℚ
deriving DecidableEq

/-- A trail wall segment: owner id plus the two endpoints.  `sid` is the
ghost creation sequence number embedding JS object identity (the source
keys `Set` and `Map` entries on the segment object itself); `fromP`/`toP`
embed the source fields `from`/`to` (`from` is a Lean keyword). -/
structure Segment where
  sid : Nat
  playerId : String
  fromP : Point
  toP : Point
deriving DecidableEq

/-- JS `Math.round` (round half toward +∞) on a rational, as an integer. -/
def jsRound (q : ℚ) : ℤ := ⌊q + 1/2⌋

/-- `getCellKey(x, z)`: the spatial-grid cell of a point
(`Math.floor(x / GRID_CELL_SIZE)` in each coordinate). -/
def getCellKey (x z : ℚ) : ℤ × ℤ := (⌊x / GRID_CELL_SIZE⌋, ⌊z / GRID_CELL_SIZE⌋)

/-- The spatial grid `spatialGrid.cells`: a JS object mapping cell keys to
`Set`s of segments, embedded as an insertion-ordered association list with
insertion-ordered member lists. -/
structure SpatialGrid where
  cells : List ((ℤ × ℤ) × List Segment)
deriving DecidableEq

/-- The member list of one grid cell (empty if the cell is absent). -/
def cellSegments (g : SpatialGrid) (k : ℤ × ℤ) : List Segment :=
  (((g.cells.find? (fun kc => kc.1 = k)).map (fun kc => kc.2)).getD [])

/-- Register a segment in one cell: create the cell on first use, append
to its member list otherwise (JS `Set.add`; a segment object is added to a
given cell at most once, and the membership guard mirrors set semantics). -/
def SpatialGrid.addToCell (g : SpatialGrid) (k : ℤ × ℤ) (s : Segment) : SpatialGrid :=
  if g.cells.any (fun kc => kc.1 = k) then
    ⟨g.cells.map (fun kc => if kc.1 = k then (kc.1, if s ∈ kc.2 then kc.2 else kc.2 ++ [s]) else kc)⟩
  else
    ⟨g.cells ++ [(k, [s])]⟩

/-- `spatialGrid.addSegment(segment)`: register the segment under the cells
of its two endpoints (only endpoint cells are registered; the recorded
`segment.cells` back-reference always equals this endpoint-key set, so it is
recomputed on removal rather than stored). -/
def SpatialGrid.addSegment (g : SpatialGrid) (s : Segment) : SpatialGrid :=
  let fromKey := getCellKey s.fromP.x s.fromP.z
  let toKey := getCellKey s.toP.x s.toP.z
  let g1 := g.addToCell fromKey s
  if fromKey ≠ toKey then g1.addToCell toKey s else g1

/-- Delete a segment from one cell's member set, dropping the cell when it
becomes empty (JS `Set.delete` plus the source's empty-cell cleanup). -/
def SpatialGrid.removeFromCell (g : SpatialGrid) (k : ℤ × ℤ) (s : Segment) : SpatialGrid :=
  ⟨g.cells.filterMap (fun kc =>
    if kc.1 = k then
      let l := kc.2.filter (fun t => t ≠ s)
      if l.isEmpty then none else some (kc.1, l)
    else some kc)⟩

/-- `spatialGrid.removeSegment(segment)`: remove the segment from the cells
it was registered in (its two endpoint cells). -/
def SpatialGrid.removeSegment (g : SpatialGrid) (s : Segment) : SpatialGrid :=
  let fromKey := getCellKey s.fromP.x s.fromP.z
  let toKey := getCellKey s.toP.x s.toP.z
  (g.removeFromCell fromKey s).removeFromCell toKey s

/-- The nine cell keys scanned by `getNearbySegments`, in the source's
iteration order (`i` from −1 to 1 outer, `j` inner). -/
def nearbyKeys (c : ℤ × ℤ) : List (ℤ × ℤ) :=
  [(c.1 - 1, c.2 - 1), (c.1 - 1, c.2), (c.1 - 1, c.2 + 1),
   (c.1, c.2 - 1), (c.1, c.2), (c.1, c.2 + 1),
   (c.1 + 1, c.2 - 1), (c.1 + 1, c.2), (c.1 + 1, c.2 + 1)]

/-- `spatialGrid.getNearbySegments(x, z)`: the union (as a JS `Set`, i.e.
deduplicated in first-insertion order) of the member lists of the 3×3 block
of cells centered on the cell containing `(x, z)`. -/
def getNearbySegments (g : SpatialGrid) (x z : ℚ) : List Segment :=
  (nearbyKeys (getCellKey x z)).foldl
    (fun acc k => (cellSegments g k).foldl (fun a t => if t ∈ a then a else a ++ [t]) acc)
    []

/-- `spatialGrid.clearPlayerSegments(playerId)`: net effect of the source's
scan that calls `removeSegment` on every segment of the given player — all
of that player's segments disappear from every cell, and cells left empty
are dropped. -/
def SpatialGrid.clearPlayerSegments (g : SpatialGrid) (pid : String) : SpatialGrid :=
  ⟨g.cells.filterMap (fun kc =>
    let l := kc.2.filter (fun t => t.playerId ≠ pid)
    if l.isEmpty then none else some (kc.1, l))⟩

/-- `segmentCollision(from, to, x, z)`: the padded axis-aligned
bounding-box test with half width `COLLISION_WIDTH / 2`. -/
def segmentCollision (fromP toP : Point) (x z : ℚ) : Bool :=
  let halfWidth := COLLISION_WIDTH / 2
  let minX := min fromP.x toP.x - halfWidth
  let maxX := max fromP.x toP.x + halfWidth
  let minZ := min fromP.z toP.z - halfWidth
  let maxZ := max fromP.z toP.z + halfWidth
  decide (minX ≤ x ∧ x ≤ maxX ∧ minZ ≤ z ∧ z ≤ maxZ)

/-- Per-player state.  `direction` is stored in quarter turns: the source
stores the radian value `direction * (π / 2)` (always an exact integer
multiple of π/2) and the JS remainder normalization becomes `Int.tmod`.
The constant rendering height `position.y = 0.25` is omitted. -/
structure Player where
  id : String
  username : String
  position : Point
  color : String
  direction : ℤ
  trail : List Point
  active : Bool
  score : Nat
deriving DecidableEq

/-- The authoritative `gameState` object: insertion-ordered player registry,
global oldest-first segment list, the `segmentOwners` map (keyed by the ghost
segment identity `sid`), the spatial grid, and the ghost identity counter. -/
structure GameState where
  players : List (String × Player)
  segments : List Segment
  segmentOwners : List (Nat × String)
  spatialGrid : SpatialGrid
  nextSid : Nat
deriving DecidableEq

/-- The server's state at startup: no players, no segments, empty grid. -/
def initialGameState : GameState := ⟨[], [], [], ⟨[]⟩, 0⟩

/-- `this.players[id]` lookup. -/
def getPlayer (st : GameState) (id : String) : Option Player :=
  ((st.players.find? (fun pr => decide (pr.1 = id))).map (fun pr => pr.2))

/-- `this.players[id] = p` assignment: overwrites in place, or appends a new
key (JS string-keyed objects preserve insertion order). -/
def setPlayer (st : GameState) (id : String) (p : Player) : GameState :=
  if st.players.any (fun pr => decide (pr.1 = id)) then
    { st with players := st.players.map (fun pr => if pr.1 = id then (id, p) else pr) }
  else
    { st with players := st.players ++ [(id, p)] }

/-- `isRecentSegment(playerId, segment)`: true when the player exists, has a
nonempty trail, and the segment starts at the player's most recent trail
position. -/
def isRecentSegment (st : GameState) (playerId : String) (s : Segment) : Bool :=
  match getPlayer st playerId with
  | none => false
  | some player =>
    match player.trail.getLast? with
    | none => false
    | some lastTrailPos => decide (s.fromP.x = lastTrailPos.x ∧ s.fromP.z = lastTrailPos.z)

/-- The guard of the `continue` in `checkCollision`: skip the segment when
it belongs to the querying player and `isRecentSegment` holds. -/
def skipsSegment (st : GameState) (playerId : String) (s : Segment) : Bool :=
  decide (s.playerId = playerId) && isRecentSegment st playerId s

/-- The per-segment test of `checkCollision`: the segment is not skipped and
its padded bounding box contains the query point. -/
def collisionPred (st : GameState) (playerId : String) (x z : ℚ) (s : Segment) : Bool :=
  !skipsSegment st playerId s && segmentCollision s.fromP s.toP x z

/-- The `{collision, collidedWith}` result object of `checkCollision`
(`collidedWith` is `none` for the absent/`null` attribution). -/
structure CollisionResult where
  collision : Bool
  collidedWith : Option String
deriving DecidableEq

/-- `checkCollision(playerId, x, z)`: arena boundary first (collision with
no attribution), then the first nearby segment passing `collisionPred` wins
and is returned with its owner as attribution. -/
def checkCollision (st : GameState) (playerId : String) (x z : ℚ) : CollisionResult :=
  if ARENA_SIZE < |x| ∨ ARENA_SIZE < |z| then ⟨true, none⟩
  else
    match (getNearbySegments st.spatialGrid x z).find? (collisionPred st playerId x z) with
    | some s => ⟨true, some s.playerId⟩
    | none => ⟨false, none⟩

/-- One draw from the `Math.random()` oracle stream (the stream values are
rationals in `[0, 1)`; an exhausted stream draws 0). -/
def randTake : List ℚ → ℚ × List ℚ
  | [] => (0, [])
  | r :: rs => (r, rs)

/-- The player-distance part of `findSafePosition`'s safety check: every
player is at squared distance at least `safeDistance² = 25`. -/
def isSafeFromPlayers (st : GameState) (x z : ℚ) : Bool :=
  st.players.all (fun pr =>
    let dx := pr.2.position.x - x
    let dz := pr.2.position.z - z
    decide (5 * 5 ≤ dx * dx + dz * dz))

/-- The trail-distance part of `findSafePosition`'s safety check: both
endpoints of every nearby segment are at squared distance at least 25. -/
def isSafeFromSegments (st : GameState) (x z : ℚ) : Bool :=
  (getNearbySegments st.spatialGrid x z).all (fun s =>
    let dx1 := s.fromP.x - x
    let dz1 := s.fromP.z - z
    let dx2 := s.toP.x - x
    let dz2 := s.toP.z - z
    decide (5 * 5 ≤ dx1 * dx1 + dz1 * dz1) && decide (5 * 5 ≤ dx2 * dx2 + dz2 * dz2))

/-- The sampling loop of `findSafePosition` with its attempt budget as fuel
(`maxAttempts = 50`); exhausting the budget falls back to an unchecked
random position.  `margin = 5`. -/
def findSafePositionLoop (st : GameState) (rand : List ℚ) : Nat → Point
  | 0 =>
    let r1 := (randTake rand).1
    let r2 := (randTake (randTake rand).2).1
    ⟨((⌊r1 * (ARENA_SIZE - 5) - ARENA_SIZE / 2⌋ : ℤ) : ℚ),
     ((⌊r2 * (ARENA_SIZE - 5) - ARENA_SIZE / 2⌋ : ℤ) : ℚ)⟩
  | fuel + 1 =>
    let r1 := (randTake rand).1
    let rand1 := (randTake rand).2
    let r2 := (randTake rand1).1
    let rand2 := (randTake rand1).2
    let x : ℚ := ((⌊r1 * (ARENA_SIZE * 2 - 5 * 2) - ARENA_SIZE + 5⌋ : ℤ) : ℚ)
    let z : ℚ := ((⌊r2 * (ARENA_SIZE * 2 - 5 * 2) - ARENA_SIZE + 5⌋ : ℤ) : ℚ)
    if isSafeFromPlayers st x z then
      if isSafeFromSegments st x z then ⟨x, z⟩
      else findSafePositionLoop st rand2 fuel
    else findSafePositionLoop st rand2 fuel

/-- `findSafePosition()`, with `Math.random()` given as an oracle stream. -/
def findSafePosition (st : GameState) (rand : List ℚ) : Point :=
  findSafePositionLoop st rand 50

/-- `addPlayer(id, color)`.  The randomly generated username and the random
stream of `findSafePosition` are oracle parameters. -/
def addPlayer (st : GameState) (id username color : String) (rand : List ℚ) : GameState :=
  let position := findSafePosition st rand
  setPlayer st id ⟨id, username, position, color, 0, [], true, 0⟩

/-- `removePlayer(id)`: clear the player's segments from the grid, filter
them from the global list, delete the player (`segmentOwners` is left
untouched by the source here). -/
def removePlayer (st : GameState) (id : String) : GameState :=
  { st with spatialGrid := st.spatialGrid.clearPlayerSegments id,
            segments := st.segments.filter (fun s => decide (s.playerId ≠ id)),
            players := st.players.filter (fun pr => decide (pr.1 ≠ id)) }

/-- A turn intent. -/
inductive TurnDir where
  | left
  | right
deriving DecidableEq

/-- `changeDirection(id, turnDirection)`: no-op for a missing or inactive
player (the source returns `false` there, `true` otherwise); left adds a
quarter turn, right subtracts one, and the JS remainder `% (2π)` becomes
`Int.tmod 4` on quarter turns. -/
def changeDirection (st : GameState) (id : String) (turnDirection : TurnDir) : GameState :=
  match getPlayer st id with
  | none => st
  | some player =>
    if player.active = false then st
    else
      let d :=
        match turnDirection with
        | .left => player.direction + 1
        | .right => player.direction - 1
      setPlayer st id { player with direction := d.tmod 4 }

/-- `addTrailSegment(playerId, fromX, fromZ, toX, toZ)`: append to the
global list, register in the grid, record ownership; when the global list
exceeds `MAX_TRAIL_LENGTH × playerCount`, shift off the oldest segment and
remove it from the grid and the ownership map. -/
def addTrailSegment (st : GameState) (playerId : String) (fromX fromZ toX toZ : ℚ) :
    GameState × Segment :=
  let segment : Segment := ⟨st.nextSid, playerId, ⟨fromX, fromZ⟩, ⟨toX, toZ⟩⟩
  let segments1 := st.segments ++ [segment]
  let grid1 := st.spatialGrid.addSegment segment
  let owners1 := st.segmentOwners ++ [(segment.sid, playerId)]
  if MAX_TRAIL_LENGTH * st.players.length < segments1.length then
    match segments1 with
    | [] =>
      ({ st with segments := [], spatialGrid := grid1, segmentOwners := owners1,
                 nextSid := st.nextSid + 1 }, segment)
    | oldest :: rest =>
      ({ st with segments := rest,
                 spatialGrid := grid1.removeSegment oldest,
                 segmentOwners := owners1.filter (fun e => decide (e.1 ≠ oldest.sid)),
                 nextSid := st.nextSid + 1 }, segment)
  else
    ({ st with segments := segments1, spatialGrid := grid1, segmentOwners := owners1,
               nextSid := st.nextSid + 1 }, segment)

/-- `Math.round(Math.sin(direction))` for a direction of `d` quarter turns
(exact: the sine of an integer multiple of π/2 is −1, 0 or 1). -/
def dirX (d : ℤ) : ℤ :=
  let m := d.tmod 4
  if m = 1 ∨ m = -3 then 1 else if m = -1 ∨ m = 3 then -1 else 0

/-- `Math.round(Math.cos(direction))` for a direction of `d` quarter turns. -/
def dirZ (d : ℤ) : ℤ :=
  let m := d.tmod 4
  if m = 0 then 1 else if m = 2 ∨ m = -2 then -1 else 0

/-- The per-player outcome object returned by `updatePlayer`: either a
collision report carrying the pre-move position and the attribution, or a
move report carrying the new position, direction and the client copy of the
new segment (if one was laid down). -/
inductive UpdateResult where
  | collision (position : Point) (collidedWith : Option String)
  | moved (position : Point) (direction : ℤ) (newSegment : Option (Point × Point))
deriving DecidableEq

/-- The scoring step of `updatePlayer`'s collision branch: award one point
to the attributed owner, but only when an owner is attributed, differs from
the colliding player, and still exists in the registry. -/
def applyScore (st : GameState) (id : String) (cw : Option String) : GameState :=
  match cw with
  | none => st
  | some w =>
    if w = id then st
    else
      match getPlayer st w with
      | none => st
      | some scorer => setPlayer st w { scorer with score := scorer.score + 1 }

/-- The trail list after the push of `updatePlayer`'s move branch: append
the pre-move position; when the bound is exceeded, `shift()` the oldest
entry off the front. -/
def pushTrail (trail : List Point) (prev : Point) : List Point :=
  if MAX_TRAIL_LENGTH < (trail ++ [prev]).length then (trail ++ [prev]).tail
  else trail ++ [prev]

/-- The committed-move branch of `updatePlayer`: update the position; when
the trail tail is not already at the pre-move position, push the pre-move
position (shifting the oldest entry beyond `MAX_TRAIL_LENGTH`) and lay down
the wall segment from the pre-move to the new position. -/
def moveStep (st : GameState) (id : String) (player : Player) (nextX nextZ : ℚ) :
    GameState × Option UpdateResult :=
  if player.trail = [] ∨ player.trail.getLast? ≠ some player.position then
    ((addTrailSegment
        (setPlayer st id { player with position := Point.mk nextX nextZ,
                                       trail := pushTrail player.trail player.position }) id
        player.position.x player.position.z nextX nextZ).1,
     some (.moved ⟨nextX, nextZ⟩ player.direction (some (player.position, ⟨nextX, nextZ⟩))))
  else
    (setPlayer st id { player with position := Point.mk nextX nextZ },
     some (.moved ⟨nextX, nextZ⟩ player.direction none))

/-- The candidate next coordinate of `updatePlayer`:
`Math.round(prev + dir * MOVE_SPEED)` (a plain abbreviation for the
source's `nextX`/`nextZ` expressions). -/
def nextCoord (prev : ℚ) (dir : ℤ) : ℚ := ((jsRound (prev + (dir : ℚ) * MOVE_SPEED) : ℤ) : ℚ)

/-- `updatePlayer(id)`: advance one step.  Missing or inactive player is a
no-op returning `null`.  On collision: mark inactive, award a point via
`applyScore`, and report the collision at the pre-move position (the
scheduled respawn timer is modelled by the `Reachable.respawnFires`
transition).  Otherwise commit the move via `moveStep`. -/
def updatePlayer (st : GameState) (id : String) : GameState × Option UpdateResult :=
  match getPlayer st id with
  | none => (st, none)
  | some player =>
    if player.active = false then (st, none)
    else
      if (checkCollision st id (nextCoord player.position.x (dirX player.direction))
            (nextCoord player.position.z (dirZ player.direction))).collision then
        (applyScore (setPlayer st id { player with active := false }) id
           (checkCollision st id (nextCoord player.position.x (dirX player.direction))
              (nextCoord player.position.z (dirZ player.direction))).collidedWith,
         some (.collision player.position
           (checkCollision st id (nextCoord player.position.x (dirX player.direction))
              (nextCoord player.position.z (dirZ player.direction))).collidedWith))
      else
        moveStep st id player (nextCoord player.position.x (dirX player.direction))
          (nextCoord player.position.z (dirZ player.direction))

/-- `respawnPlayer(id)`: no-op on a missing player; otherwise move to a
fresh safe position, reset direction and trail, clear the player's segments
from the grid, the ownership map and the global list, and reactivate.  The
returned pair carries the `playerRespawned` payload (position, direction). -/
def respawnPlayer (st : GameState) (id : String) (rand : List ℚ) :
    GameState × Option (Point × ℤ) :=
  match getPlayer st id with
  | none => (st, none)
  | some player =>
    let position := findSafePosition st rand
    let st1 := setPlayer st id
      { player with position := position, direction := 0, trail := [], active := true }
    let st2 :=
      { st1 with spatialGrid := st1.spatialGrid.clearPlayerSegments id,
                 segmentOwners := st1.segmentOwners.filter (fun e => decide (e.2 ≠ id)),
                 segments := st1.segments.filter (fun s => decide (s.playerId ≠ id)) }
    (st2, some (position, 0))

/-- One `gameLoop` frame: every player alive at its turn is advanced, in
registry order, threading the state (the source iterates the live key set;
`updatePlayer` never adds or removes keys, so the snapshot is faithful). -/
def gameTick (st : GameState) : GameState :=
  (st.players.map (fun pr => pr.1)).foldl
    (fun acc id =>
      match getPlayer acc id with
      | some p => if p.active then (updatePlayer acc id).1 else acc
      | none => acc) st

/-- The states the server can reach: startup, `joinGame`, turn intents,
game-loop frames, the deferred respawn timer firing (only pending for a
player that died and has not yet respawned, hence the inactivity guard),
and disconnects. -/
inductive Reachable : GameState → Prop
  | init : Reachable initialGameState
  | join (st : GameState) (id username color : String) (rand : List ℚ) :
      Reachable st → Reachable (addPlayer st id username color rand)
  | turn (st : GameState) (id : String) (t : TurnDir) :
      Reachable st → Reachable (changeDirection st id t)
  | tick (st : GameState) : Reachable st → Reachable (gameTick st)
  | respawnFires (st : GameState) (id : String) (rand : List ℚ) (p : Player) :
      Reachable st → getPlayer st id = some p → p.active = false →
      Reachable ((respawnPlayer st id rand).1)
  | leave (st : GameState) (id : String) :
      Reachable st → Reachable (removePlayer st id)

example : getCellKey 14 (-3) = (1, -1) := by with_unfolding_all decide
example : segmentCollision ⟨0, 0⟩ ⟨1, 0⟩ 1 0 = true := by with_unfolding_all decide
example : segmentCollision ⟨0, 0⟩ ⟨1, 0⟩ 1 1 = false := by with_unfolding_all decide

/-- A concrete run: player A joins on an empty server.  The random stream
`[1/2, 1/2]` makes the first spawn sample `(0, 0)`, accepted at once. -/
def stJoinA : GameState := addPlayer initialGameState "A" "ua" "red" [1/2, 1/2]

/-- A turns left: facing becomes one quarter turn (east, +x). -/
def stTurnA : GameState := changeDirection stJoinA "A" TurnDir.left

/-- One frame: A advances east to `(1, 0)`, laying segment `(0,0)→(1,0)`. -/
def stTick1 : GameState := gameTick stTurnA

/-- Oracle stream for B's join in the overlap run: 50 sample pairs that all
land exactly on A's position `(1, 0)` (unsafe, so every attempt fails),
then the fallback draw, which also lands on `(1, 0)` — the fallback is
unchecked, so B spawns on A's wall endpoint. -/
def randOverlap : List ℚ := (List.replicate 50 [(96 : ℚ)/190, (95 : ℚ)/190]).flatten ++ [(51 : ℚ)/95, (50 : ℚ)/95]

/-- B joins at the unchecked fallback position `(1, 0)`. -/
def stJoinB : GameState := addPlayer stTick1 "B" "ub" "blue" randOverlap

/-- One more frame: A advances to `(2, 0)` laying `(1,0)→(2,0)`; B (facing
north) advances to `(1, 1)` laying `(1,0)→(1,1)`, which overlaps A's two
segments at the grid point `(1, 0)`. -/
def stOverlap : GameState := gameTick stJoinB

example : getPlayer stTick1 "A" =
    some ⟨"A", "ua", ⟨1, 0⟩, "red", 1, [⟨0, 0⟩], true, 0⟩ := by with_unfolding_all decide
example : getPlayer stJoinB "B" =
    some ⟨"B", "ub", ⟨1, 0⟩, "blue", 0, [], true, 0⟩ := by with_unfolding_all decide
example : stOverlap.segments =
    [⟨0, "A", ⟨0, 0⟩, ⟨1, 0⟩⟩, ⟨1, "A", ⟨1, 0⟩, ⟨2, 0⟩⟩, ⟨2, "B", ⟨1, 0⟩, ⟨1, 1⟩⟩] := by
  with_unfolding_all decide
example : checkCollision stOverlap "A" 1 0 = ⟨true, some "A"⟩ := by with_unfolding_all decide

/-- The crash run: A joins at `(0, 0)` facing north and drives straight for
six frames, reaching `(0, 6)` with six wall segments along the x = 0 line. -/
def stCrashA : GameState := gameTick^[6] stJoinA

/-- Oracle stream for B's join in the crash run: 50 samples landing on A's
position `(0, 6)` (all rejected), then the fallback draw giving `(7, 3)`. -/
def randCrash : List ℚ := (List.replicate 50 [(1 : ℚ)/2, (101 : ℚ)/190]).flatten ++ [(57 : ℚ)/95, (53 : ℚ)/95]

/-- B joins at `(7, 3)` (far enough from A and its trail) and turns right
(west, −x), heading at A's wall. -/
def stCrashB : GameState := changeDirection (addPlayer stCrashA "B" "ub" "blue" randCrash) "B" TurnDir.right

/-- Seven more frames: B advances west from `(7, 3)` to `(1, 3)` laying six
segments; on the seventh frame its candidate cell `(0, 3)` lies on A's wall,
so B dies — attributed to A, whose score becomes 1 — while B's six segments
stay in the global list and the grid until the respawn timer fires. -/
def stCrash : GameState := gameTick^[7] stCrashB

/-- The per-player score as observed through the registry (`players[q].score`). -/
def scoreOf (st : GameState) (q : String) : Option Nat :=
  (getPlayer st q).map (fun p => p.score)

lemma setPlayer_segments (st : GameState) (id : String) (p : Player) :
    (setPlayer st id p).segments = st.segments := by
  unfold setPlayer; split <;> rfl

lemma setPlayer_spatialGrid (st : GameState) (id : String) (p : Player) :
    (setPlayer st id p).spatialGrid = st.spatialGrid := by
  unfold setPlayer; split <;> rfl

lemma setPlayer_segmentOwners (st : GameState) (id : String) (p : Player) :
    (setPlayer st id p).segmentOwners = st.segmentOwners := by
  unfold setPlayer; split <;> rfl

lemma list_find?_replace_same (l : List (String × Player)) (id : String) (p : Player)
    (h : l.any (fun pr => decide (pr.1 = id)) = true) :
    (l.map (fun pr => if pr.1 = id then (id, p) else pr)).find? (fun pr => decide (pr.1 = id))
      = some (id, p) := by
  induction l with
  | nil => simp at h
  | cons hd tl ih =>
    by_cases hh : hd.1 = id
    · rw [List.map_cons, List.find?_cons, if_pos hh]
      have : decide (((id, p) : String × Player).1 = id) = true := decide_eq_true rfl
      rw [this]
    · rw [List.any_cons] at h
      rcases (Bool.or_eq_true _ _).mp h with h1 | h2
      · exact absurd (of_decide_eq_true h1) hh
      · rw [List.map_cons, List.find?_cons, if_neg hh, decide_eq_false hh]
        exact ih h2

lemma list_find?_replace_other (l : List (String × Player)) (id q : String) (p : Player)
    (h : q ≠ id) :
    (l.map (fun pr => if pr.1 = id then (id, p) else pr)).find? (fun pr => decide (pr.1 = q))
      = l.find? (fun pr => decide (pr.1 = q)) := by
  induction l with
  | nil => rfl
  | cons hd tl ih =>
    by_cases hh : hd.1 = id
    · have hq : ¬ (id = q) := fun hc => h hc.symm
      have hq2 : ¬ (hd.1 = q) := by rw [hh]; exact hq
      rw [List.map_cons, List.find?_cons, List.find?_cons, if_pos hh,
          decide_eq_false hq, decide_eq_false hq2]
      exact ih
    · rw [List.map_cons, List.find?_cons, List.find?_cons, if_neg hh]
      by_cases hq : hd.1 = q
      · rw [decide_eq_true hq]
      · rw [decide_eq_false hq]
        exact ih

lemma getPlayer_setPlayer_same (st : GameState) (id : String) (p : Player) :
    getPlayer (setPlayer st id p) id = some p := by
  unfold getPlayer setPlayer
  split
  · rename_i hany
    rw [show ({ st with players := st.players.map (fun pr => if pr.1 = id then (id, p) else pr) } : GameState).players = st.players.map (fun pr => if pr.1 = id then (id, p) else pr) from rfl]
    rw [list_find?_replace_same st.players id p hany]
    rfl
  · rename_i hany
    rw [show ({ st with players := st.players ++ [(id, p)] } : GameState).players = st.players ++ [(id, p)] from rfl]
    rw [List.find?_append]
    have hnone : st.players.find? (fun pr => decide (pr.1 = id)) = none := by
      rw [List.find?_eq_none]
      intro pr hmem hpr
      exact hany (List.any_eq_true.mpr ⟨pr, hmem, hpr⟩)
    rw [hnone]
    simp [List.find?_cons]

lemma getPlayer_setPlayer_other (st : GameState) (id q : String) (p : Player)
    (h : q ≠ id) : getPlayer (setPlayer st id p) q = getPlayer st q := by
  unfold getPlayer setPlayer
  split
  · rw [show ({ st with players := st.players.map (fun pr => if pr.1 = id then (id, p) else pr) } : GameState).players = st.players.map (fun pr => if pr.1 = id then (id, p) else pr) from rfl]
    rw [list_find?_replace_other st.players id q p h]
  · rw [show ({ st with players := st.players ++ [(id, p)] } : GameState).players = st.players ++ [(id, p)] from rfl]
    rw [List.find?_append]
    have hsingle : [(id, p)].find? (fun pr => decide (pr.1 = q)) = none := by
      rw [List.find?_cons, decide_eq_false (fun hc : ((id, p) : String × Player).1 = q => h hc.symm)]
      rfl
    rw [hsingle]
    simp

lemma mem_setPlayer_players {st : GameState} {id : String} {p : Player} {pr : String × Player}
    (h : pr ∈ (setPlayer st id p).players) : pr.2 = p ∨ pr ∈ st.players := by
  unfold setPlayer at h
  split at h
  · rw [List.mem_map] at h
    obtain ⟨q, hq, heq⟩ := h
    by_cases hh : q.1 = id
    · simp [hh] at heq
      left; rw [← heq]
    · simp [hh] at heq
      right; rw [← heq]; exact hq
  · rcases List.mem_append.mp h with h | h
    · right; exact h
    · left; simp at h; rw [h]

lemma tmod4_lower (a : ℤ) : -3 ≤ a.tmod 4 := by
  rcases a with n | n
  · simp [Int.tmod]; omega
  · simp [Int.tmod]; omega

lemma tmod4_upper (a : ℤ) : a.tmod 4 ≤ 3 := by
  rcases a with n | n
  · simp [Int.tmod]; omega
  · simp [Int.tmod]; omega

lemma findSafePositionLoop_den (st : GameState) (rand : List ℚ) (fuel : Nat) :
    (findSafePositionLoop st rand fuel).x.den = 1 ∧
    (findSafePositionLoop st rand fuel).z.den = 1 := by
  induction fuel generalizing rand with
  | zero => exact ⟨Rat.den_intCast _, Rat.den_intCast _⟩
  | succ n ih =>
    rw [findSafePositionLoop]
    split
    · split
      · exact ⟨Rat.den_intCast _, Rat.den_intCast _⟩
      · exact ih _
    · exact ih _

lemma findSafePosition_den (st : GameState) (rand : List ℚ) :
    (findSafePosition st rand).x.den = 1 ∧ (findSafePosition st rand).z.den = 1 :=
  findSafePositionLoop_den st rand 50

/-- The per-player payload of the reachability invariant: integer grid
coordinates, a facing within (−2π, 2π) in quarter turns, and the trail
bound. -/
def playerOk (p : Player) : Bool :=
  decide (p.position.x.den = 1) && decide (p.position.z.den = 1) &&
  decide (-3 ≤ p.direction) && decide (p.direction ≤ 3) &&
  decide (p.trail.length ≤ MAX_TRAIL_LENGTH)

/-- The reachability invariant: every registered player satisfies `playerOk`. -/
def playersOk (st : GameState) : Bool := st.players.all (fun pr => playerOk pr.2)

lemma playerOk_spec {p : Player} (h : playerOk p = true) :
    p.position.x.den = 1 ∧ p.position.z.den = 1 ∧
    -3 ≤ p.direction ∧ p.direction ≤ 3 ∧ p.trail.length ≤ MAX_TRAIL_LENGTH := by
  unfold playerOk at h
  simp only [Bool.and_eq_true, decide_eq_true_eq] at h
  tauto

lemma playerOk_intro {p : Player} (h1 : p.position.x.den = 1) (h2 : p.position.z.den = 1)
    (h3 : -3 ≤ p.direction) (h4 : p.direction ≤ 3) (h5 : p.trail.length ≤ MAX_TRAIL_LENGTH) :
    playerOk p = true := by
  unfold playerOk
  simp only [Bool.and_eq_true, decide_eq_true_eq]
  tauto

lemma playerOk_of_getPlayer {st : GameState} {id : String} {p : Player}
    (h : playersOk st = true) (hg : getPlayer st id = some p) : playerOk p = true := by
  unfold getPlayer at hg
  rcases Option.map_eq_some'.mp hg with ⟨pr, hfind, hp⟩
  have hmem := List.mem_of_find?_eq_some hfind
  rw [← hp]
  exact List.all_eq_true.mp h pr hmem

lemma playersOk_setPlayer {st : GameState} {id : String} {p : Player}
    (h : playersOk st = true) (hp : playerOk p = true) :
    playersOk (setPlayer st id p) = true := by
  unfold playersOk
  rw [List.all_eq_true]
  intro pr hmem
  rcases mem_setPlayer_players hmem with h2 | h2
  · rw [h2]; exact hp
  · exact List.all_eq_true.mp h pr h2

lemma addTrailSegment_players (st : GameState) (pid : String) (a b c d : ℚ) :
    (addTrailSegment st pid a b c d).1.players = st.players := by
  simp only [addTrailSegment]
  split
  · split <;> rfl
  · rfl

lemma addTrailSegment_segments (st : GameState) (pid : String) (a b c d : ℚ) :
    (addTrailSegment st pid a b c d).1.segments =
      (if MAX_TRAIL_LENGTH * st.players.length <
          (st.segments ++ [(⟨st.nextSid, pid, ⟨a, b⟩, ⟨c, d⟩⟩ : Segment)]).length then
        (st.segments ++ [(⟨st.nextSid, pid, ⟨a, b⟩, ⟨c, d⟩⟩ : Segment)]).tail
      else st.segments ++ [(⟨st.nextSid, pid, ⟨a, b⟩, ⟨c, d⟩⟩ : Segment)]) := by
  simp only [addTrailSegment]
  split
  · rename_i hcap
    split
    · rename_i heq
      exact absurd heq (by simp)
    · rename_i oldest rest heq
      rw [heq]
      rfl
  · rfl

lemma playersOk_applyScore {st : GameState} (id : String) (cw : Option String)
    (h : playersOk st = true) : playersOk (applyScore st id cw) = true := by
  unfold applyScore
  cases cw with
  | none => exact h
  | some w =>
    show playersOk (if w = id then st else
      match getPlayer st w with
      | none => st
      | some scorer => setPlayer st w { scorer with score := scorer.score + 1 }) = true
    by_cases hw : w = id
    · rw [if_pos hw]; exact h
    · rw [if_neg hw]
      cases hs : getPlayer st w with
      | none => exact h
      | some scorer =>
        rcases playerOk_spec (playerOk_of_getPlayer h hs) with ⟨g1, g2, g3, g4, g5⟩
        exact playersOk_setPlayer h (playerOk_intro g1 g2 g3 g4 g5)

lemma pushTrail_length {trail : List Point} {prev : Point}
    (h : trail.length ≤ MAX_TRAIL_LENGTH) :
    (pushTrail trail prev).length ≤ MAX_TRAIL_LENGTH := by
  unfold pushTrail
  split
  · rename_i hlong
    simp only [List.length_tail, List.length_append, List.length_cons, List.length_nil]
      at hlong h ⊢
    omega
  · rename_i hshort
    exact Nat.le_of_not_lt hshort

lemma playersOk_moveStep {st : GameState} {id : String} {player : Player} (nextX nextZ : ℚ)
    (h : playersOk st = true) (hden1 : nextX.den = 1) (hden2 : nextZ.den = 1)
    (hd3 : -3 ≤ player.direction) (hd4 : player.direction ≤ 3)
    (h5 : player.trail.length ≤ MAX_TRAIL_LENGTH) :
    playersOk (moveStep st id player nextX nextZ).1 = true := by
  unfold moveStep
  split
  · show playersOk ((addTrailSegment (setPlayer st id _) id _ _ _ _).1) = true
    unfold playersOk
    rw [addTrailSegment_players]
    exact playersOk_setPlayer h (playerOk_intro hden1 hden2 hd3 hd4 (pushTrail_length h5))
  · exact playersOk_setPlayer h (playerOk_intro hden1 hden2 hd3 hd4 h5)

lemma playersOk_updatePlayer {st : GameState} (id : String)
    (h : playersOk st = true) : playersOk (updatePlayer st id).1 = true := by
  unfold updatePlayer
  cases hg : getPlayer st id with
  | none => simpa using h
  | some player =>
    have hpo := playerOk_of_getPlayer h hg
    rcases playerOk_spec hpo with ⟨h1, h2, h3, h4, h5⟩
    simp only []
    split
    · exact h
    · split
      · exact playersOk_applyScore id _ (playersOk_setPlayer h (playerOk_intro h1 h2 h3 h4 h5))
      · exact playersOk_moveStep _ _ h (Rat.den_intCast _) (Rat.den_intCast _) h3 h4 h5

lemma playersOk_gameTick {st : GameState} (h : playersOk st = true) :
    playersOk (gameTick st) = true := by
  unfold gameTick
  generalize st.players.map (fun pr => pr.1) = ids
  induction ids generalizing st with
  | nil => exact h
  | cons hd tl ih =>
    rw [List.foldl_cons]
    apply ih
    cases hg : getPlayer st hd with
    | none => simpa [hg] using h
    | some p =>
      simp only [hg]
      split
      · exact playersOk_updatePlayer hd h
      · exact h

lemma playersOk_addPlayer {st : GameState} (id username color : String) (rand : List ℚ)
    (h : playersOk st = true) : playersOk (addPlayer st id username color rand) = true := by
  unfold addPlayer
  refine playersOk_setPlayer h (playerOk_intro ?_ ?_ (show (-3:ℤ) ≤ 0 by decide)
    (show (0:ℤ) ≤ 3 by decide) (show ([] : List Point).length ≤ MAX_TRAIL_LENGTH by decide))
  · exact (findSafePosition_den st rand).1
  · exact (findSafePosition_den st rand).2

lemma playersOk_changeDirection {st : GameState} (id : String) (t : TurnDir)
    (h : playersOk st = true) : playersOk (changeDirection st id t) = true := by
  unfold changeDirection
  cases hg : getPlayer st id with
  | none => exact h
  | some player =>
    simp only []
    split
    · exact h
    · have hpo := playerOk_of_getPlayer h hg
      rcases playerOk_spec hpo with ⟨h1, h2, _, _, h5⟩
      exact playersOk_setPlayer h (playerOk_intro h1 h2 (tmod4_lower _) (tmod4_upper _) h5)

lemma playersOk_respawnPlayer {st : GameState} (id : String) (rand : List ℚ)
    (h : playersOk st = true) : playersOk (respawnPlayer st id rand).1 = true := by
  unfold respawnPlayer
  cases hg : getPlayer st id with
  | none => exact h
  | some player =>
    have hs : playersOk (setPlayer st id
        { player with position := findSafePosition st rand, direction := 0,
                      trail := [], active := true }) = true :=
      playersOk_setPlayer h (playerOk_intro (findSafePosition_den st rand).1
        (findSafePosition_den st rand).2 (show (-3:ℤ) ≤ 0 by decide)
        (show (0:ℤ) ≤ 3 by decide) (show ([] : List Point).length ≤ MAX_TRAIL_LENGTH by decide))
    exact hs

lemma updatePlayer_spec (st : GameState) (id : String) :
    (getPlayer st id = none ∧ updatePlayer st id = (st, none)) ∨
    (∃ p, getPlayer st id = some p ∧ p.active = false ∧ updatePlayer st id = (st, none)) ∨
    (∃ p, getPlayer st id = some p ∧ p.active = true ∧
      (((checkCollision st id (nextCoord p.position.x (dirX p.direction))
            (nextCoord p.position.z (dirZ p.direction))).collision = true ∧
        updatePlayer st id =
          (applyScore (setPlayer st id { p with active := false }) id
             (checkCollision st id (nextCoord p.position.x (dirX p.direction))
                (nextCoord p.position.z (dirZ p.direction))).collidedWith,
           some (.collision p.position
             (checkCollision st id (nextCoord p.position.x (dirX p.direction))
                (nextCoord p.position.z (dirZ p.direction))).collidedWith))) ∨
       ((checkCollision st id (nextCoord p.position.x (dirX p.direction))
            (nextCoord p.position.z (dirZ p.direction))).collision = false ∧
        updatePlayer st id = moveStep st id p (nextCoord p.position.x (dirX p.direction))
          (nextCoord p.position.z (dirZ p.direction))))) := by
  unfold updatePlayer
  split
  · rename_i heq
    exact Or.inl ⟨heq, rfl⟩
  · rename_i p heq
    by_cases ha : p.active = false
    · rw [if_pos ha]
      exact Or.inr (Or.inl ⟨p, heq, ha, rfl⟩)
    · rw [if_neg ha]
      have ha2 : p.active = true := by
        cases hb : p.active
        · exact absurd hb ha
        · rfl
      by_cases hc : (checkCollision st id (nextCoord p.position.x (dirX p.direction))
          (nextCoord p.position.z (dirZ p.direction))).collision = true
      · rw [if_pos hc]
        exact Or.inr (Or.inr ⟨p, heq, ha2, Or.inl ⟨hc, rfl⟩⟩)
      · rw [if_neg hc]
        refine Or.inr (Or.inr ⟨p, heq, ha2, Or.inr ⟨?_, rfl⟩⟩)
        cases hb : (checkCollision st id (nextCoord p.position.x (dirX p.direction))
            (nextCoord p.position.z (dirZ p.direction))).collision
        · rfl
        · exact absurd hb hc

lemma moveStep_snd_moved (st : GameState) (id : String) (p : Player) (nX nZ : ℚ) :
    ∃ ns, (moveStep st id p nX nZ).2 = some (.moved ⟨nX, nZ⟩ p.direction ns) := by
  unfold moveStep
  split
  · exact ⟨_, rfl⟩
  · exact ⟨_, rfl⟩

lemma applyScore_segments (st : GameState) (id : String) (cw : Option String) :
    (applyScore st id cw).segments = st.segments := by
  unfold applyScore
  cases cw with
  | none => rfl
  | some w =>
    show (if w = id then st else _).segments = st.segments
    split
    · rfl
    · cases hs : getPlayer st w with
      | none => rfl
      | some scorer => exact setPlayer_segments _ _ _

lemma applyScore_spatialGrid (st : GameState) (id : String) (cw : Option String) :
    (applyScore st id cw).spatialGrid = st.spatialGrid := by
  unfold applyScore
  cases cw with
  | none => rfl
  | some w =>
    show (if w = id then st else _).spatialGrid = st.spatialGrid
    split
    · rfl
    · cases hs : getPlayer st w with
      | none => rfl
      | some scorer => exact setPlayer_spatialGrid _ _ _

lemma applyScore_segmentOwners (st : GameState) (id : String) (cw : Option String) :
    (applyScore st id cw).segmentOwners = st.segmentOwners := by
  unfold applyScore
  cases cw with
  | none => rfl
  | some w =>
    show (if w = id then st else _).segmentOwners = st.segmentOwners
    split
    · rfl
    · cases hs : getPlayer st w with
      | none => rfl
      | some scorer => exact setPlayer_segmentOwners _ _ _

lemma getPlayer_applyScore_of_ne {st : GameState} {id : String} {cw : Option String} (q : String)
    (h : ∀ w, cw = some w → q ≠ w) :
    getPlayer (applyScore st id cw) q = getPlayer st q := by
  unfold applyScore
  cases cw with
  | none => rfl
  | some w =>
    show getPlayer (if w = id then st else _) q = getPlayer st q
    split
    · rfl
    · cases hs : getPlayer st w with
      | none => rfl
      | some scorer => exact getPlayer_setPlayer_other _ _ _ _ (h w rfl)

lemma scoreOf_setPlayer (st : GameState) (id : String) (p : Player) (q : String) :
    scoreOf (setPlayer st id p) q = if q = id then some p.score else scoreOf st q := by
  unfold scoreOf
  by_cases hq : q = id
  · rw [if_pos hq, hq, getPlayer_setPlayer_same]
    rfl
  · rw [if_neg hq, getPlayer_setPlayer_other _ _ _ _ hq]

lemma playersOk_removePlayer {st : GameState} (id : String)
    (h : playersOk st = true) : playersOk (removePlayer st id) = true := by
  unfold playersOk
  rw [List.all_eq_true]
  intro pr hmem
  unfold removePlayer at hmem
  simp only [] at hmem
  have : pr ∈ st.players := List.mem_of_mem_filter hmem
  exact List.all_eq_true.mp h pr this

lemma applyScore_none (st : GameState) (id : String) : applyScore st id none = st := rfl

lemma applyScore_some (st : GameState) (id w : String) :
    applyScore st id (some w) =
      (if w = id then st else
        match getPlayer st w with
        | none => st
        | some scorer => setPlayer st w { scorer with score := scorer.score + 1 }) := rfl

lemma getPlayer_applyScore_self (st : GameState) (id : String) (cw : Option String) :
    getPlayer (applyScore st id cw) id = getPlayer st id := by
  cases cw with
  | none => rfl
  | some w =>
    rw [applyScore_some]
    split
    · rfl
    · rename_i hw
      cases hs : getPlayer st w with
      | none => rfl
      | some scorer => exact getPlayer_setPlayer_other _ _ _ _ (fun hc => hw hc.symm)

lemma scoreOf_of_getPlayer {st : GameState} {id : String} {p : Player}
    (hg : getPlayer st id = some p) : scoreOf st id = some p.score := by
  unfold scoreOf
  rw [hg]
  rfl

lemma getPlayer_fields_update (st : GameState) (g : SpatialGrid) (o : List (Nat × String))
    (sl : List Segment) (q : String) :
    getPlayer { st with spatialGrid := g, segmentOwners := o, segments := sl } q
      = getPlayer st q := rfl

lemma playersOk_reachable {st : GameState} (h : Reachable st) : playersOk st = true := by
  induction h with
  | init => rfl
  | join st id username color rand _ ih => exact playersOk_addPlayer id username color rand ih
  | turn st id t _ ih => exact playersOk_changeDirection id t ih
  | tick st _ ih => exact playersOk_gameTick ih
  | respawnFires st id rand p _ _ _ ih => exact playersOk_respawnPlayer id rand ih
  | leave st id _ ih => exact playersOk_removePlayer id ih

example : getPlayer stCrashB "B" =
    some ⟨"B", "ub", ⟨7, 3⟩, "blue", -1, [], true, 0⟩ := by with_unfolding_all decide
example : (getPlayer stCrash "B").map (fun p => (p.active, p.score, p.position)) =
    some (false, 0, ⟨1, 3⟩) := by with_unfolding_all decide
example : (getPlayer stCrash "A").map (fun p => (p.active, p.score)) =
    some (true, 1) := by with_unfolding_all decide
example : (stCrash.segments.filter (fun s => s.playerId = "B")).length = 6 := by
  with_unfolding_all decide

/-- The boundary branch of `checkCollision`. -/
lemma checkCollision_boundary (st : GameState) (pid : String) (x z : ℚ)
    (h : ARENA_SIZE < |x| ∨ ARENA_SIZE < |z|) :
    checkCollision st pid x z = ⟨true, none⟩ := by
  unfold checkCollision
  rw [if_pos h]

/-- A one-player state sitting at the east arena edge facing east: the
next candidate cell `(101, 0)` is out of bounds. -/
def tinyPlayer : Player := ⟨"A", "u", ⟨100, 0⟩, "red", 1, [], true, 0⟩

/-- The game state holding only `tinyPlayer`. -/
def stTiny : GameState := ⟨[("A", tinyPlayer)], [], [], ⟨[]⟩, 0⟩

/-- The crash run one frame before B's collision (A at `(0, 12)`,
B at `(1, 3)`). -/
def stBeforeCrash : GameState := gameTick^[6] stCrashB

/-- The crash tick halfway through: A (first in registry order) has already
advanced to `(0, 13)`; B's update is next and will collide. -/
def stMidCrash : GameState := (updatePlayer stBeforeCrash "A").1

/-- A's player record in `stMidCrash`. -/
def pACrash : Player :=
  ⟨"A", "ua", ⟨0, 13⟩, "red", 0, (List.range 13).map (fun i => ⟨0, (i : ℚ)⟩), true, 0⟩

example : getPlayer stMidCrash "A" = some pACrash := by with_unfolding_all decide

/-- C5: for every candidate next position with `|x|` or `|z|` beyond the
arena half-size (which is 100), `checkCollision` reports a collision with
no attribution, regardless of the contents of the spatial index; in
particular a vehicle at `(100, 0)` facing east (one quarter turn) collides
with no attribution and no score change on its next advance. -/
theorem c5_boundary_collision :
    ARENA_SIZE = 100 ∧
    (∀ (st : GameState) (playerId : String) (x z : ℚ),
      ARENA_SIZE < |x| ∨ ARENA_SIZE < |z| →
      checkCollision st playerId x z = ⟨true, none⟩) ∧
    (∀ (st : GameState) (id : String) (p : Player),
      getPlayer st id = some p → p.active = true → p.position = ⟨100, 0⟩ →
      p.direction = 1 →
      ∃ st2, updatePlayer st id = (st2, some (.collision ⟨100, 0⟩ none)) ∧
        ∀ q, scoreOf st2 q = scoreOf st q) := by
  refine ⟨by norm_num [ARENA_SIZE, GRID_SIZE], checkCollision_boundary, ?_⟩
  intro st id p hg ha hpos hdir
  have hx : nextCoord p.position.x (dirX p.direction) = 101 := by
    rw [hpos, hdir]; with_unfolding_all decide
  have hz : nextCoord p.position.z (dirZ p.direction) = 0 := by
    rw [hpos, hdir]; with_unfolding_all decide
  have hcc : checkCollision st id (nextCoord p.position.x (dirX p.direction))
      (nextCoord p.position.z (dirZ p.direction)) = ⟨true, none⟩ := by
    rw [hx, hz]
    exact checkCollision_boundary st id 101 0 (Or.inl (by norm_num [ARENA_SIZE, GRID_SIZE]))
  rcases updatePlayer_spec st id with ⟨hgn, _⟩ | ⟨q, hgq, haq, _⟩ | ⟨q, hgq, haq, hrest⟩
  · rw [hg] at hgn; exact absurd hgn (by simp)
  · rw [hg] at hgq
    cases Option.some.inj hgq
    exact absurd haq (by rw [ha]; simp)
  · rw [hg] at hgq
    cases Option.some.inj hgq
    rcases hrest with ⟨hcol, heq⟩ | ⟨hcol, heq⟩
    · simp only [hcc] at heq
      rw [applyScore_none] at heq
      refine ⟨setPlayer st id { p with active := false }, ?_, ?_⟩
      · rw [heq, hpos]
      · intro q
        rw [scoreOf_setPlayer]
        split
        · rename_i hq
          rw [hq, scoreOf_of_getPlayer hg]
        · rfl
    · rw [hcc] at hcol
      exact absurd hcol (by simp)

/-- Witness for C5 at concrete inputs: a filled spatial index still yields
the unattributed boundary result at `(101, 0)`, and the concrete
edge-vehicle state dies with no attribution and no score change. -/
theorem c5_witness :
    checkCollision stOverlap "X" 101 0 = ⟨true, none⟩ ∧
    (∃ st2, updatePlayer stTiny "A" = (st2, some (.collision ⟨100, 0⟩ none)) ∧
      ∀ q, scoreOf st2 q = scoreOf stTiny q) :=
  ⟨c5_boundary_collision.2.1 stOverlap "X" 101 0 (Or.inl (by with_unfolding_all decide)),
   c5_boundary_collision.2.2 stTiny "A" tinyPlayer rfl rfl rfl rfl⟩

/-- C9: a collision outcome leaves the vehicle's stored position, trail and
the segment structures untouched — only the alive flag flips — and the
emitted result carries the pre-move position. -/
theorem c9_collision_frame (st : GameState) (id : String) (p : Player)
    (st2 : GameState) (pos : Point) (cw : Option String)
    (hg : getPlayer st id = some p)
    (h : updatePlayer st id = (st2, some (.collision pos cw))) :
    pos = p.position ∧
    getPlayer st2 id = some { p with active := false } ∧
    st2.segments = st.segments ∧
    st2.spatialGrid = st.spatialGrid ∧
    st2.segmentOwners = st.segmentOwners := by
  rcases updatePlayer_spec st id with ⟨_, heq⟩ | ⟨q, _, _, heq⟩ | ⟨q, hgq, haq, hrest⟩
  · rw [heq] at h; exact absurd h (by simp)
  · rw [heq] at h; exact absurd h (by simp)
  · rw [hg] at hgq
    cases Option.some.inj hgq
    rcases hrest with ⟨hcol, heq⟩ | ⟨hcol, heq⟩
    · rw [heq] at h
      rw [Prod.mk.injEq] at h
      obtain ⟨h1, h2⟩ := h
      injection h2 with h2
      injection h2 with hpos hcw
      refine ⟨hpos.symm, ?_, ?_, ?_, ?_⟩
      · rw [← h1, getPlayer_applyScore_self, getPlayer_setPlayer_same]
      · rw [← h1, applyScore_segments, setPlayer_segments]
      · rw [← h1, applyScore_spatialGrid, setPlayer_spatialGrid]
      · rw [← h1, applyScore_segmentOwners, setPlayer_segmentOwners]
    · rw [heq] at h
      obtain ⟨ns, hns⟩ := moveStep_snd_moved st id p
        (nextCoord p.position.x (dirX p.direction)) (nextCoord p.position.z (dirZ p.direction))
      have := congrArg Prod.snd h
      rw [hns] at this
      exact absurd this (by simp)

/-- Witness for C9: the edge vehicle of `stTiny` dies in place. -/
theorem c9_witness :
    (⟨100, 0⟩ : Point) = tinyPlayer.position ∧
    getPlayer ((updatePlayer stTiny "A").1) "A" = some { tinyPlayer with active := false } ∧
    ((updatePlayer stTiny "A").1).segments = stTiny.segments ∧
    ((updatePlayer stTiny "A").1).spatialGrid = stTiny.spatialGrid ∧
    ((updatePlayer stTiny "A").1).segmentOwners = stTiny.segmentOwners :=
  c9_collision_frame stTiny "A" tinyPlayer ((updatePlayer stTiny "A").1) ⟨100, 0⟩ none
    rfl (by with_unfolding_all decide)

/-- C4: a collision attributed to the colliding vehicle itself or to nobody
(boundary) increments no score; an increment — of exactly 1, to exactly the
attributed owner — happens only when the attributed owner exists in the
registry and differs from the colliding vehicle. -/
theorem c4_score_attribution (st : GameState) (id : String)
    (st2 : GameState) (pos : Point) (cw : Option String)
    (h : updatePlayer st id = (st2, some (.collision pos cw))) :
    ((cw = none ∨ cw = some id) → ∀ q, scoreOf st2 q = scoreOf st q) ∧
    (∀ ow, cw = some ow → ow ≠ id →
      ((getPlayer st ow = none → ∀ q, scoreOf st2 q = scoreOf st q) ∧
       (∀ pw, getPlayer st ow = some pw →
          scoreOf st2 ow = some (pw.score + 1) ∧
          ∀ q, q ≠ ow → scoreOf st2 q = scoreOf st q))) := by
  rcases updatePlayer_spec st id with ⟨_, heq⟩ | ⟨q, _, _, heq⟩ | ⟨p, hgq, haq, hrest⟩
  · rw [heq] at h; exact absurd h (by simp)
  · rw [heq] at h; exact absurd h (by simp)
  · rcases hrest with ⟨hcol, heq⟩ | ⟨hcol, heq⟩
    · rw [heq] at h
      rw [Prod.mk.injEq] at h
      obtain ⟨h1, h2⟩ := h
      injection h2 with h2
      injection h2 with hpos hcw
      have hsc : ∀ q, scoreOf (setPlayer st id { p with active := false }) q = scoreOf st q := by
        intro q
        rw [scoreOf_setPlayer]
        split
        · rename_i hq
          rw [hq, scoreOf_of_getPlayer hgq]
        · rfl
      constructor
      · intro hcase q
        rcases hcase with hnone | hself
        · rw [← h1, hcw, hnone, applyScore_none]
          exact hsc q
        · rw [← h1, hcw, hself, applyScore_some, if_pos rfl]
          exact hsc q
      · intro ow how hne
        have h1ow := h1
        rw [hcw, how] at h1ow
        rw [applyScore_some, if_neg hne] at h1ow
        have hgow : getPlayer (setPlayer st id { p with active := false }) ow = getPlayer st ow :=
          getPlayer_setPlayer_other st id ow _ hne
        constructor
        · intro hnone q
          rw [hgow, hnone] at h1ow
          rw [← h1ow]
          exact hsc q
        · intro pw hpw
          rw [hgow, hpw] at h1ow
          constructor
          · rw [← h1ow, scoreOf_setPlayer, if_pos rfl]
          · intro q hq
            rw [← h1ow, scoreOf_setPlayer, if_neg hq]
            exact hsc q
    · rw [heq] at h
      obtain ⟨ns, hns⟩ := moveStep_snd_moved st id p
        (nextCoord p.position.x (dirX p.direction)) (nextCoord p.position.z (dirZ p.direction))
      have hcontra := congrArg Prod.snd h
      rw [hns] at hcontra
      exact absurd hcontra (by simp)

/-- Witness for C4: the boundary death of `stTiny` changes no score, and
B's crash into A's wall in the crash run bumps exactly A's score by 1. -/
theorem c4_witness :
    scoreOf ((updatePlayer stTiny "A").1) "A" = scoreOf stTiny "A" ∧
    scoreOf ((updatePlayer stMidCrash "B").1) "A" = some (pACrash.score + 1) ∧
    scoreOf ((updatePlayer stMidCrash "B").1) "B" = scoreOf stMidCrash "B" := by
  refine ⟨?_, ?_, ?_⟩
  · exact (c4_score_attribution stTiny "A" ((updatePlayer stTiny "A").1) ⟨100, 0⟩ none
      (by with_unfolding_all decide)).1 (Or.inl rfl) "A"
  · exact (((c4_score_attribution stMidCrash "B" ((updatePlayer stMidCrash "B").1) ⟨1, 3⟩
      (some "A") (by with_unfolding_all decide)).2 "A" rfl (by decide)).2 pACrash
      (by with_unfolding_all decide)).1
  · exact (((c4_score_attribution stMidCrash "B" ((updatePlayer stMidCrash "B").1) ⟨1, 3⟩
      (some "A") (by with_unfolding_all decide)).2 "A" rfl (by decide)).2 pACrash
      (by with_unfolding_all decide)).2 "B" (by decide)

/-- C10: `respawnPlayer` changes only the vehicle's position, direction,
trail, alive flag and its segments (cleared from the list, grid and
ownership map); username, color, id, cumulative score, and every other
player are untouched. -/
theorem c10_respawn_frame (st : GameState) (id : String) (p : Player) (rand : List ℚ)
    (st2 : GameState) (r : Option (Point × ℤ))
    (hg : getPlayer st id = some p)
    (h : respawnPlayer st id rand = (st2, r)) :
    getPlayer st2 id = some { p with position := findSafePosition st rand, direction := 0,
                                     trail := [], active := true } ∧
    (∀ q, q ≠ id → getPlayer st2 q = getPlayer st q) ∧
    scoreOf st2 id = some p.score ∧
    st2.segments = st.segments.filter (fun s => decide (s.playerId ≠ id)) ∧
    st2.spatialGrid = st.spatialGrid.clearPlayerSegments id ∧
    st2.segmentOwners = st.segmentOwners.filter (fun e => decide (e.2 ≠ id)) ∧
    r = some (findSafePosition st rand, 0) := by
  unfold respawnPlayer at h
  split at h
  · rename_i heq
    rw [hg] at heq
    exact absurd heq (by simp)
  · rename_i p2 heq
    rw [hg] at heq
    cases Option.some.inj heq
    rw [Prod.mk.injEq] at h
    obtain ⟨h1, h2⟩ := h
    refine ⟨?_, ?_, ?_, ?_, ?_, ?_, h2.symm⟩
    · rw [← h1, getPlayer_fields_update, getPlayer_setPlayer_same]
    · intro q hq
      rw [← h1, getPlayer_fields_update, getPlayer_setPlayer_other st id q _ hq]
    · rw [← h1]
      unfold scoreOf
      rw [getPlayer_fields_update, getPlayer_setPlayer_same]
      rfl
    · rw [← h1]
      show (setPlayer st id _).segments.filter _ = _
      rw [setPlayer_segments]
    · rw [← h1]
      show ((setPlayer st id _).spatialGrid.clearPlayerSegments id) = _
      rw [setPlayer_spatialGrid]
    · rw [← h1]
      show (setPlayer st id _).segmentOwners.filter _ = _
      rw [setPlayer_segmentOwners]

lemma getPlayer_addTrailSegment (st : GameState) (pid : String) (a b c d : ℚ) (q : String) :
    getPlayer (addTrailSegment st pid a b c d).1 q = getPlayer st q := by
  unfold getPlayer
  rw [addTrailSegment_players]

lemma reachable_iterate (n : Nat) {st : GameState} (h : Reachable st) :
    Reachable (gameTick^[n] st) := by
  induction n generalizing st with
  | zero => exact h
  | succ k ih =>
    rw [Function.iterate_succ_apply]
    exact ih (Reachable.tick st h)

lemma reachable_stOverlap : Reachable stOverlap :=
  Reachable.tick _ (Reachable.join _ _ _ _ _
    (Reachable.tick _ (Reachable.turn _ _ _ (Reachable.join _ _ _ _ _ Reachable.init))))

lemma reachable_stCrash : Reachable stCrash :=
  reachable_iterate 7 (Reachable.turn _ _ _ (Reachable.join _ _ _ _ _
    (reachable_iterate 6 (Reachable.join _ _ _ _ _ Reachable.init))))

/-- Grid well-formedness: every stored segment is registered in the grid
under both endpoint cells, and every grid entry refers to a stored segment
(the invariant the mutation paths of the source maintain). -/
def WfGrid (st : GameState) : Bool :=
  st.segments.all (fun s =>
    decide (s ∈ cellSegments st.spatialGrid (getCellKey s.fromP.x s.fromP.z)) &&
    decide (s ∈ cellSegments st.spatialGrid (getCellKey s.toP.x s.toP.z))) &&
  st.spatialGrid.cells.all (fun kc => kc.2.all (fun s => decide (s ∈ st.segments)))

lemma mem_dedup_foldl_acc {a : Segment} {l acc : List Segment} (h : a ∈ acc) :
    a ∈ l.foldl (fun a2 t => if t ∈ a2 then a2 else a2 ++ [t]) acc := by
  induction l generalizing acc with
  | nil => exact h
  | cons hd tl ih =>
    rw [List.foldl_cons]
    apply ih
    split
    · exact h
    · exact List.mem_append_left _ h

lemma mem_dedup_foldl_of_mem {a : Segment} {l : List Segment} (acc : List Segment) (h : a ∈ l) :
    a ∈ l.foldl (fun a2 t => if t ∈ a2 then a2 else a2 ++ [t]) acc := by
  induction l generalizing acc with
  | nil => simp at h
  | cons hd tl ih =>
    rw [List.foldl_cons]
    rcases List.mem_cons.mp h with h1 | h1
    · subst h1
      apply mem_dedup_foldl_acc
      split
      · assumption
      · exact List.mem_append_right _ (by simp)
    · exact ih _ h1

lemma mem_of_dedup_foldl {a : Segment} {l : List Segment} {acc : List Segment}
    (h : a ∈ l.foldl (fun a2 t => if t ∈ a2 then a2 else a2 ++ [t]) acc) :
    a ∈ acc ∨ a ∈ l := by
  induction l generalizing acc with
  | nil => exact Or.inl h
  | cons hd tl ih =>
    rw [List.foldl_cons] at h
    rcases ih h with h1 | h1
    · split at h1
      · exact Or.inl h1
      · rcases List.mem_append.mp h1 with h2 | h2
        · exact Or.inl h2
        · simp only [List.mem_singleton] at h2
          subst h2
          exact Or.inr (by simp)
    · exact Or.inr (List.mem_cons_of_mem _ h1)

lemma mem_keys_foldl_acc {g : SpatialGrid} {keys : List (ℤ × ℤ)} {acc : List Segment}
    {s : Segment} (h : s ∈ acc) :
    s ∈ keys.foldl
      (fun acc2 k2 => (cellSegments g k2).foldl (fun a t => if t ∈ a then a else a ++ [t]) acc2)
      acc := by
  induction keys generalizing acc with
  | nil => exact h
  | cons hd tl ih =>
    rw [List.foldl_cons]
    exact ih (mem_dedup_foldl_acc h)

lemma mem_keys_foldl {g : SpatialGrid} {s : Segment} {k : ℤ × ℤ} :
    ∀ (keys : List (ℤ × ℤ)) (acc : List Segment), k ∈ keys → s ∈ cellSegments g k →
    s ∈ keys.foldl
      (fun acc2 k2 => (cellSegments g k2).foldl (fun a t => if t ∈ a then a else a ++ [t]) acc2)
      acc := by
  intro keys
  induction keys with
  | nil => intro acc hk _; simp at hk
  | cons hd tl ih =>
    intro acc hk hs
    rw [List.foldl_cons]
    rcases List.mem_cons.mp hk with h1 | h1
    · subst h1
      exact mem_keys_foldl_acc (mem_dedup_foldl_of_mem _ hs)
    · exact ih _ h1 hs

lemma mem_getNearbySegments_of_key {g : SpatialGrid} {s : Segment} {x z : ℚ} {k : ℤ × ℤ}
    (hk : k ∈ nearbyKeys (getCellKey x z)) (hs : s ∈ cellSegments g k) :
    s ∈ getNearbySegments g x z := by
  unfold getNearbySegments
  exact mem_keys_foldl _ _ hk hs

lemma mem_of_getNearbySegments {g : SpatialGrid} {s : Segment} {x z : ℚ}
    (h : s ∈ getNearbySegments g x z) :
    ∃ k ∈ nearbyKeys (getCellKey x z), s ∈ cellSegments g k := by
  unfold getNearbySegments at h
  have main : ∀ (keys : List (ℤ × ℤ)) (acc : List Segment),
      s ∈ keys.foldl
        (fun acc2 k2 => (cellSegments g k2).foldl (fun a t => if t ∈ a then a else a ++ [t]) acc2)
        acc →
      s ∈ acc ∨ ∃ k ∈ keys, s ∈ cellSegments g k := by
    intro keys
    induction keys with
    | nil => intro acc hh; exact Or.inl hh
    | cons hd tl ih =>
      intro acc hh
      rw [List.foldl_cons] at hh
      rcases ih _ hh with h1 | h1
      · rcases mem_of_dedup_foldl h1 with h2 | h2
        · exact Or.inl h2
        · exact Or.inr ⟨hd, by simp, h2⟩
      · obtain ⟨k, hk1, hk2⟩ := h1
        exact Or.inr ⟨k, List.mem_cons_of_mem _ hk1, hk2⟩
  rcases main _ _ h with h1 | h1
  · simp at h1
  · exact h1

lemma mem_segments_of_cellSegments {st : GameState} {k : ℤ × ℤ} {s : Segment}
    (hw : WfGrid st = true) (h : s ∈ cellSegments st.spatialGrid k) : s ∈ st.segments := by
  unfold WfGrid at hw
  rw [Bool.and_eq_true] at hw
  have hw2 := hw.2
  unfold cellSegments at h
  cases hfind : st.spatialGrid.cells.find? (fun kc => kc.1 = k) with
  | none => rw [hfind] at h; simp at h
  | some kc =>
    rw [hfind] at h
    have h2 : s ∈ kc.2 := h
    have hmem := List.mem_of_find?_eq_some hfind
    have := List.all_eq_true.mp hw2 kc hmem
    have := List.all_eq_true.mp this s h2
    exact of_decide_eq_true this

lemma cell_registered_of_WfGrid {st : GameState} {s : Segment}
    (hw : WfGrid st = true) (h : s ∈ st.segments) :
    s ∈ cellSegments st.spatialGrid (getCellKey s.fromP.x s.fromP.z) ∧
    s ∈ cellSegments st.spatialGrid (getCellKey s.toP.x s.toP.z) := by
  unfold WfGrid at hw
  rw [Bool.and_eq_true] at hw
  have := List.all_eq_true.mp hw.1 s h
  rw [Bool.and_eq_true] at this
  exact ⟨of_decide_eq_true this.1, of_decide_eq_true this.2⟩

lemma floor_div10_close {a b : ℚ} (h : |a - b| ≤ 11/10) :
    ⌊b / 10⌋ - 1 ≤ ⌊a / 10⌋ ∧ ⌊a / 10⌋ ≤ ⌊b / 10⌋ + 1 := by
  rw [abs_le] at h
  constructor
  · have hle : b / 10 - ((1 : ℤ) : ℚ) ≤ a / 10 := by push_cast; linarith
    have := Int.floor_le_floor hle
    rw [Int.floor_sub_int] at this
    exact this
  · have hle : a / 10 ≤ b / 10 + ((1 : ℤ) : ℚ) := by push_cast; linarith
    have := Int.floor_le_floor hle
    rw [Int.floor_add_int] at this
    exact this

lemma getCellKey_mem_nearbyKeys {x z fx fz : ℚ}
    (hx : |fx - x| ≤ 11/10) (hz : |fz - z| ≤ 11/10) :
    getCellKey fx fz ∈ nearbyKeys (getCellKey x z) := by
  obtain ⟨h1a, h1b⟩ := floor_div10_close hx
  obtain ⟨h2a, h2b⟩ := floor_div10_close hz
  simp only [getCellKey, nearbyKeys, show GRID_CELL_SIZE = (10 : ℚ) from rfl, List.mem_cons,
    List.not_mem_nil, or_false, Prod.mk.injEq]
  omega

lemma segmentCollision_spec {f t : Point} {x z : ℚ} :
    segmentCollision f t x z = true ↔
      (min f.x t.x - 1/10 ≤ x ∧ x ≤ max f.x t.x + 1/10 ∧
       min f.z t.z - 1/10 ≤ z ∧ z ≤ max f.z t.z + 1/10) := by
  unfold segmentCollision
  rw [decide_eq_true_eq]
  have hw : COLLISION_WIDTH / 2 = 1/10 := by norm_num [COLLISION_WIDTH]
  rw [hw]

lemma segmentCollision_near_from {f t : Point} {x z : ℚ}
    (hux : |f.x - t.x| ≤ 1) (huz : |f.z - t.z| ≤ 1)
    (h : segmentCollision f t x z = true) :
    |f.x - x| ≤ 11/10 ∧ |f.z - z| ≤ 11/10 := by
  rw [segmentCollision_spec] at h
  obtain ⟨h1, h2, h3, h4⟩ := h
  rw [abs_le] at hux huz
  constructor
  · rw [abs_le]
    constructor
    · have : max f.x t.x ≤ f.x + 1 := max_le (by linarith) (by linarith)
      linarith
    · have : f.x - 1 ≤ min f.x t.x := le_min (by linarith) (by linarith)
      linarith
  · rw [abs_le]
    constructor
    · have : max f.z t.z ≤ f.z + 1 := max_le (by linarith) (by linarith)
      linarith
    · have : f.z - 1 ≤ min f.z t.z := le_min (by linarith) (by linarith)
      linarith

/-- C1 (amended): inside the arena, for every stored unit-length segment
whose padded bounding box contains the query point and which the
self-collision guard does not skip, `checkCollision` reports a collision —
attributed to the owner of the first matching non-skipped nearby segment
(not necessarily the given segment when several padded boxes overlap, see
the counterexample) — and `getNearbySegments` returns every stored segment
one of whose endpoint cells is the query cell or a Chebyshev-distance-1
neighbor. -/
theorem c1_collision_completeness_amended (st : GameState) (pid : String) (s : Segment)
    (x z : ℚ)
    (hw : WfGrid st = true)
    (hmem : s ∈ st.segments)
    (hux : |s.fromP.x - s.toP.x| ≤ 1) (huz : |s.fromP.z - s.toP.z| ≤ 1)
    (hax : |x| ≤ ARENA_SIZE) (haz : |z| ≤ ARENA_SIZE)
    (hhit : segmentCollision s.fromP s.toP x z = true)
    (hskip : skipsSegment st pid s = false) :
    (checkCollision st pid x z).collision = true ∧
    (∃ s2 ∈ st.segments, collisionPred st pid x z s2 = true ∧
      (checkCollision st pid x z).collidedWith = some s2.playerId) ∧
    (∀ s3 ∈ st.segments, ∀ (qx qz : ℚ),
      (getCellKey s3.fromP.x s3.fromP.z ∈ nearbyKeys (getCellKey qx qz) ∨
       getCellKey s3.toP.x s3.toP.z ∈ nearbyKeys (getCellKey qx qz)) →
      s3 ∈ getNearbySegments st.spatialGrid qx qz) := by
  have hnear : s ∈ getNearbySegments st.spatialGrid x z := by
    obtain ⟨hbx, hbz⟩ := segmentCollision_near_from hux huz hhit
    exact mem_getNearbySegments_of_key (getCellKey_mem_nearbyKeys hbx hbz)
      (cell_registered_of_WfGrid hw hmem).1
  have hpred : collisionPred st pid x z s = true := by
    unfold collisionPred
    rw [hskip, hhit]
    rfl
  have hbd : ¬ (ARENA_SIZE < |x| ∨ ARENA_SIZE < |z|) := by
    intro hor
    rcases hor with hc | hc
    · exact absurd hc (not_lt.mpr hax)
    · exact absurd hc (not_lt.mpr haz)
  cases hfind : (getNearbySegments st.spatialGrid x z).find? (collisionPred st pid x z) with
  | none =>
    rw [List.find?_eq_none] at hfind
    exact absurd hpred (hfind s hnear)
  | some s2 =>
    have hpred2 := List.find?_some hfind
    have hmem2 : s2 ∈ getNearbySegments st.spatialGrid x z := List.mem_of_find?_eq_some hfind
    have hseg2 : s2 ∈ st.segments := by
      obtain ⟨k, _, hk2⟩ := mem_of_getNearbySegments hmem2
      exact mem_segments_of_cellSegments hw hk2
    have hcc : checkCollision st pid x z = ⟨true, some s2.playerId⟩ := by
      unfold checkCollision
      rw [if_neg hbd, hfind]
    refine ⟨by rw [hcc], ⟨s2, hseg2, hpred2, by rw [hcc]⟩, ?_⟩
    intro s3 hs3 qx qz hcell
    rcases hcell with hcase | hcase
    · exact mem_getNearbySegments_of_key hcase (cell_registered_of_WfGrid hw hs3).1
    · exact mem_getNearbySegments_of_key hcase (cell_registered_of_WfGrid hw hs3).2

/-- Counterexample to C1 as stated: in the reachable overlap state, B's
stored segment `(1,0)→(1,1)` satisfies every hypothesis of the claim at the
in-arena query point `(1, 0)` for the querying player A (not A's own
segment, hence not skipped), yet `checkCollision` attributes the collision
to A — the owner of the earlier overlapping segment — and not to B, the
owner of the given segment. -/
theorem c1_attribution_counterexample :
    Reachable stOverlap ∧
    WfGrid stOverlap = true ∧
    (⟨2, "B", ⟨1, 0⟩, ⟨1, 1⟩⟩ : Segment) ∈ stOverlap.segments ∧
    segmentCollision (⟨1, 0⟩ : Point) ⟨1, 1⟩ 1 0 = true ∧
    skipsSegment stOverlap "A" ⟨2, "B", ⟨1, 0⟩, ⟨1, 1⟩⟩ = false ∧
    |(1 : ℚ)| ≤ ARENA_SIZE ∧ |(0 : ℚ)| ≤ ARENA_SIZE ∧
    checkCollision stOverlap "A" 1 0 = ⟨true, some "A"⟩ ∧
    (checkCollision stOverlap "A" 1 0).collidedWith ≠
      some (⟨2, "B", ⟨1, 0⟩, ⟨1, 1⟩⟩ : Segment).playerId :=
  ⟨reachable_stOverlap, by with_unfolding_all decide, by with_unfolding_all decide,
   by with_unfolding_all decide, by with_unfolding_all decide, by with_unfolding_all decide,
   by with_unfolding_all decide, by with_unfolding_all decide, by with_unfolding_all decide⟩

/-- Witness for C1's amended theorem: B querying `(0, 0)` in the overlap
state hits A's first wall segment. -/
theorem c1_witness :
    (checkCollision stOverlap "B" 0 0).collision = true ∧
    (∃ s2 ∈ stOverlap.segments, collisionPred stOverlap "B" 0 0 s2 = true ∧
      (checkCollision stOverlap "B" 0 0).collidedWith = some s2.playerId) := by
  have h := c1_collision_completeness_amended stOverlap "B" ⟨0, "A", ⟨0, 0⟩, ⟨1, 0⟩⟩ 0 0
    (by with_unfolding_all decide) (by with_unfolding_all decide)
    (by with_unfolding_all decide) (by with_unfolding_all decide)
    (by with_unfolding_all decide) (by with_unfolding_all decide)
    (by with_unfolding_all decide) (by with_unfolding_all decide)
  exact ⟨h.1, h.2.1⟩

lemma setPlayer_nextSid (st : GameState) (id : String) (p : Player) :
    (setPlayer st id p).nextSid = st.nextSid := by
  unfold setPlayer; split <;> rfl

lemma pushTrail_getLast (trail : List Point) (prev : Point) :
    (pushTrail trail prev).getLast? = some prev := by
  unfold pushTrail
  split
  · rename_i hlong
    cases trail with
    | nil => simp [MAX_TRAIL_LENGTH] at hlong
    | cons hd tl =>
      rw [List.cons_append, List.tail_cons]
      exact List.getLast?_concat _
  · exact List.getLast?_concat _

lemma isRecentSegment_eq {st : GameState} {pid : String} {player : Player} {lastPos : Point}
    (hg : getPlayer st pid = some player) (hl : player.trail.getLast? = some lastPos)
    (s : Segment) :
    isRecentSegment st pid s = decide (s.fromP.x = lastPos.x ∧ s.fromP.z = lastPos.z) := by
  unfold isRecentSegment
  split
  · rename_i heq
    rw [hg] at heq
    exact absurd heq (by simp)
  · rename_i p2 heq
    rw [hg] at heq
    cases Option.some.inj heq
    split
    · rename_i heq2
      rw [hl] at heq2
      exact absurd heq2 (by simp)
    · rename_i lp2 heq2
      rw [hl] at heq2
      cases Option.some.inj heq2
      rfl

lemma mem_players_of_getPlayer {st : GameState} {q : String} {p : Player}
    (h : getPlayer st q = some p) : 0 < st.players.length := by
  unfold getPlayer at h
  rcases Option.map_eq_some'.mp h with ⟨pr, hfind, _⟩
  have hmem := List.mem_of_find?_eq_some hfind
  exact List.length_pos.mpr (List.ne_nil_of_mem hmem)

lemma getLast_filter_concat (l : List Segment) (s : Segment) (pred : Segment → Bool)
    (hs : pred s = true) : ((l ++ [s]).filter pred).getLast? = some s := by
  rw [List.filter_append]
  have hone : [s].filter pred = [s] := by
    simp [List.filter_cons, hs]
  rw [hone]
  exact List.getLast?_concat _

/-- After A moves north once, turns 180 degrees over two intents, moves
back onto its spawn cell (skipped as recent), and turns west, this is the
state right before the advance that lays A's third segment. -/
def stPreBack : GameState :=
  changeDirection (gameTick (changeDirection (changeDirection (gameTick stJoinA)
    "A" TurnDir.left) "A" TurnDir.left)) "A" TurnDir.left

/-- The tick after `stPreBack`: A has just advanced to `(-1, 0)`, laying
the segment `(0,0)→(-1,0)`; its stale first segment `(0,0)→(0,1)` starts
at the same cell as the fresh one. -/
def stBack : GameState := gameTick stPreBack

lemma reachable_stBack : Reachable stBack :=
  Reachable.tick _ (Reachable.turn _ _ _ (Reachable.tick _ (Reachable.turn _ _ _
    (Reachable.turn _ _ _ (Reachable.tick _ (Reachable.join _ _ _ _ _ Reachable.init))))))

/-- Counterexample to C2 as stated: in the reachable state `stBack` the
vehicle A has just advanced one step (the `moved` result lays the segment
`(0,0)→(-1,0)`), yet the guard also skips A's stale first segment
`(0,0)→(0,1)` — a stored own segment that is NOT A's most-recently-created
one — because `isRecentSegment` compares only the segment's start point
against the last trail position, which a 180-degree turn-back revisits.
So "skips exactly when ... most-recently-created" is false. -/
theorem c2_skip_counterexample :
    Reachable stBack ∧
    updatePlayer stPreBack "A" =
      (stBack, some (.moved ⟨-1, 0⟩ 3 (some (⟨0, 0⟩, ⟨-1, 0⟩)))) ∧
    (⟨0, "A", ⟨0, 0⟩, ⟨0, 1⟩⟩ : Segment) ∈ stBack.segments ∧
    skipsSegment stBack "A" ⟨0, "A", ⟨0, 0⟩, ⟨0, 1⟩⟩ = true ∧
    (stBack.segments.filter (fun u => decide (u.playerId = "A"))).getLast? ≠
      some ⟨0, "A", ⟨0, 0⟩, ⟨0, 1⟩⟩ :=
  ⟨reachable_stBack, by with_unfolding_all decide, by with_unfolding_all decide,
   by with_unfolding_all decide, by with_unfolding_all decide⟩

/-- C2 (amended): after a vehicle advances one step laying down a wall
segment, that just-created segment is the player's most-recently-created
own segment (last own entry of the oldest-first global list), the
self-collision guard skips it, so no collision scan for the player can
ever report a collision caused by it.  However, the guard skips a segment
exactly when it belongs to the querying player AND its start point equals
the player's last trail position (which after this advance is the pre-move
cell) — a criterion satisfied by, but not exclusive to, the
most-recently-created segment. -/
theorem c2_recent_skip_amended (st : GameState) (id : String) (p : Player)
    (st2 : GameState) (pos : Point) (d : ℤ) (f t : Point)
    (hg : getPlayer st id = some p)
    (h : updatePlayer st id = (st2, some (.moved pos d (some (f, t))))) :
    ∃ s : Segment,
      (st2.segments.filter (fun u => decide (u.playerId = id))).getLast? = some s ∧
      s.fromP = f ∧ s.toP = t ∧ s.playerId = id ∧
      skipsSegment st2 id s = true ∧
      (∀ x z : ℚ, (getNearbySegments st2.spatialGrid x z).find? (collisionPred st2 id x z)
        ≠ some s) ∧
      (∀ u : Segment, skipsSegment st2 id u = true ↔
        (u.playerId = id ∧ u.fromP.x = f.x ∧ u.fromP.z = f.z)) := by
  rcases updatePlayer_spec st id with ⟨hgn, _⟩ | ⟨q, hgq, haq, heq⟩ | ⟨q, hgq, haq, hrest⟩
  · rw [hg] at hgn; exact absurd hgn (by simp)
  · rw [heq] at h
    exact absurd h (by simp)
  · rw [hg] at hgq
    cases Option.some.inj hgq
    rcases hrest with ⟨hcol, heq⟩ | ⟨hcol, heq⟩
    · rw [heq] at h
      have hcontra := congrArg Prod.snd h
      exact absurd hcontra (by simp)
    · rw [heq] at h
      unfold moveStep at h
      split at h
      · rw [Prod.mk.injEq] at h
        obtain ⟨h1, h2⟩ := h
        injection h2 with h2
        injection h2 with hpos2 hdir2 hns
        injection hns with hns
        rw [Prod.mk.injEq] at hns
        obtain ⟨hf, ht⟩ := hns
        subst h1
        have hp2 : getPlayer ((addTrailSegment
            (setPlayer st id { p with
              position := Point.mk (nextCoord p.position.x (dirX p.direction))
                (nextCoord p.position.z (dirZ p.direction)),
              trail := pushTrail p.trail p.position }) id
            p.position.x p.position.z (nextCoord p.position.x (dirX p.direction))
            (nextCoord p.position.z (dirZ p.direction))).1) id =
            some { p with
              position := Point.mk (nextCoord p.position.x (dirX p.direction))
                (nextCoord p.position.z (dirZ p.direction)),
              trail := pushTrail p.trail p.position } := by
          rw [getPlayer_addTrailSegment, getPlayer_setPlayer_same]
        have hskips : ∀ u : Segment,
            skipsSegment ((addTrailSegment
              (setPlayer st id { p with
                position := Point.mk (nextCoord p.position.x (dirX p.direction))
                  (nextCoord p.position.z (dirZ p.direction)),
                trail := pushTrail p.trail p.position }) id
              p.position.x p.position.z (nextCoord p.position.x (dirX p.direction))
              (nextCoord p.position.z (dirZ p.direction))).1) id u =
            (decide (u.playerId = id) &&
             decide (u.fromP.x = p.position.x ∧ u.fromP.z = p.position.z)) := by
          intro u
          unfold skipsSegment
          rw [isRecentSegment_eq hp2 (pushTrail_getLast p.trail p.position) u]
        set st1 : GameState := setPlayer st id { p with
            position := Point.mk (nextCoord p.position.x (dirX p.direction))
              (nextCoord p.position.z (dirZ p.direction)),
            trail := pushTrail p.trail p.position } with hst1
        have hsegs := addTrailSegment_segments st1 id
          p.position.x p.position.z (nextCoord p.position.x (dirX p.direction))
          (nextCoord p.position.z (dirZ p.direction))
        have hlastF : (((addTrailSegment st1 id p.position.x p.position.z
              (nextCoord p.position.x (dirX p.direction))
              (nextCoord p.position.z (dirZ p.direction))).1.segments.filter
              (fun u => decide (u.playerId = id))).getLast? =
            some (⟨st1.nextSid, id, ⟨p.position.x, p.position.z⟩,
              ⟨nextCoord p.position.x (dirX p.direction),
               nextCoord p.position.z (dirZ p.direction)⟩⟩ : Segment)) ∧
            (⟨st1.nextSid, id, ⟨p.position.x, p.position.z⟩,
              ⟨nextCoord p.position.x (dirX p.direction),
               nextCoord p.position.z (dirZ p.direction)⟩⟩ : Segment) ∈
              (addTrailSegment st1 id p.position.x p.position.z
                (nextCoord p.position.x (dirX p.direction))
                (nextCoord p.position.z (dirZ p.direction))).1.segments := by
          rw [hsegs]
          split
          · rename_i hcap
            have hplen : 0 < st1.players.length :=
              mem_players_of_getPlayer (getPlayer_setPlayer_same st id _)
            have hM : MAX_TRAIL_LENGTH = 50 := rfl
            rw [List.length_append, List.length_cons, List.length_nil, hM] at hcap
            cases hsegs1 : st1.segments with
            | nil =>
              rw [hsegs1] at hcap
              simp only [List.length_nil] at hcap
              exact absurd hcap (by omega)
            | cons o rest =>
              rw [List.cons_append, List.tail_cons]
              constructor
              · exact getLast_filter_concat _ _ _ (by simp)
              · exact List.mem_append_right _ (by simp)
          · constructor
            · exact getLast_filter_concat _ _ _ (by simp)
            · exact List.mem_append_right _ (by simp)
        have hskipNew : skipsSegment ((addTrailSegment st1 id p.position.x p.position.z
              (nextCoord p.position.x (dirX p.direction))
              (nextCoord p.position.z (dirZ p.direction))).1) id
            (⟨st1.nextSid, id, ⟨p.position.x, p.position.z⟩,
              ⟨nextCoord p.position.x (dirX p.direction),
               nextCoord p.position.z (dirZ p.direction)⟩⟩ : Segment) = true := by
          rw [hskips]
          simp
        refine ⟨⟨st1.nextSid, id, ⟨p.position.x, p.position.z⟩,
            ⟨nextCoord p.position.x (dirX p.direction),
             nextCoord p.position.z (dirZ p.direction)⟩⟩, hlastF.1, ?_, ?_, rfl,
            hskipNew, ?_, ?_⟩
        · rw [← hf]
        · rw [← ht]
        · intro x z hfind
          have hpf := List.find?_some hfind
          have hfalse : collisionPred ((addTrailSegment st1 id p.position.x p.position.z
                (nextCoord p.position.x (dirX p.direction))
                (nextCoord p.position.z (dirZ p.direction))).1) id x z
              (⟨st1.nextSid, id, ⟨p.position.x, p.position.z⟩,
                ⟨nextCoord p.position.x (dirX p.direction),
                 nextCoord p.position.z (dirZ p.direction)⟩⟩ : Segment) = false := by
            unfold collisionPred
            rw [hskipNew]
            rfl
          rw [hfalse] at hpf
          exact absurd hpf (by simp)
        · intro u
          rw [hskips u, Bool.and_eq_true, decide_eq_true_eq, decide_eq_true_eq, ← hf]
      · rename_i hpush
        have hcontra := congrArg Prod.snd h
        exact absurd hcontra (by simp)

/-- Witness for C2's amended theorem: A's first move in the concrete run
lays the segment `(0,0)→(1,0)`, which the guard skips and no collision
scan for A returns; the skip rule evaluates at the stale start point too. -/
theorem c2_witness :
    skipsSegment ((updatePlayer stTurnA "A").1) "A" ⟨0, "A", ⟨0, 0⟩, ⟨1, 0⟩⟩ = true ∧
    (getNearbySegments ((updatePlayer stTurnA "A").1).spatialGrid 0 1).find?
      (collisionPred ((updatePlayer stTurnA "A").1) "A" 0 1) ≠
      some ⟨0, "A", ⟨0, 0⟩, ⟨1, 0⟩⟩ ∧
    skipsSegment ((updatePlayer stTurnA "A").1) "A" ⟨7, "B", ⟨0, 0⟩, ⟨0, 1⟩⟩ = false := by
  obtain ⟨s, hlast, hf, ht, hpid, hskip, hfind, hiff⟩ :=
    c2_recent_skip_amended stTurnA "A" ⟨"A", "ua", ⟨0, 0⟩, "red", 1, [], true, 0⟩
      ((updatePlayer stTurnA "A").1) ⟨1, 0⟩ 1 ⟨0, 0⟩ ⟨1, 0⟩
      (by with_unfolding_all decide) (by with_unfolding_all decide)
  have hs : s = ⟨0, "A", ⟨0, 0⟩, ⟨1, 0⟩⟩ := by
    have hl2 : (((updatePlayer stTurnA "A").1).segments.filter
        (fun u => decide (u.playerId = "A"))).getLast? =
        some ⟨0, "A", ⟨0, 0⟩, ⟨1, 0⟩⟩ := by
      with_unfolding_all decide
    rw [hl2] at hlast
    exact (Option.some.inj hlast).symm
  refine ⟨hs ▸ hskip, hs ▸ hfind 0 1, ?_⟩
  have hnot : skipsSegment ((updatePlayer stTurnA "A").1) "A"
      ⟨7, "B", ⟨0, 0⟩, ⟨0, 1⟩⟩ ≠ true :=
    fun hc => absurd ((hiff ⟨7, "B", ⟨0, 0⟩, ⟨0, 1⟩⟩).mp hc).1 (by decide)
  exact Bool.eq_false_iff.mpr hnot

lemma all_filter_self {α : Type} (p : α → Bool) (l : List α) :
    (l.filter p).all p = true := by
  rw [List.all_eq_true]
  intro a ha
  exact List.of_mem_filter ha

lemma clearPlayerSegments_no_owner (g : SpatialGrid) (pid : String) :
    (g.clearPlayerSegments pid).cells.all
      (fun kc => kc.2.all (fun s => decide (s.playerId ≠ pid))) = true := by
  rw [List.all_eq_true]
  intro kc hkc
  rcases List.mem_filterMap.mp hkc with ⟨orig, hor, hf⟩
  simp only [] at hf
  split at hf
  · exact absurd hf (by simp)
  · have hkc2 := Option.some.inj hf
    rw [← hkc2]
    rw [List.all_eq_true]
    intro s hs
    have hs2 : s ∈ List.filter (fun t => decide (t.playerId ≠ pid)) orig.2 := hs
    exact (List.mem_filter.mp hs2).2

/-- Counterexample to C3 as stated: in the reachable crash state B is dead
(between its collision and its respawn) yet both the global segment list
and the spatial grid still contain B's wall segments — the Alive→Dead
transition does not clear them. -/
theorem c3_dead_segments_counterexample :
    Reachable stCrash ∧
    (getPlayer stCrash "B").map (fun p => p.active) = some false ∧
    stCrash.segments.any (fun s => decide (s.playerId = "B")) = true ∧
    stCrash.spatialGrid.cells.any
      (fun kc => kc.2.any (fun s => decide (s.playerId = "B"))) = true :=
  ⟨reachable_stCrash, by with_unfolding_all decide, by with_unfolding_all decide,
   by with_unfolding_all decide⟩

/-- C3 (amended): a dead vehicle's segments are cleared at the Dead→Alive
respawn transition, not at the Alive→Dead one — `respawnPlayer` leaves no
segment of the vehicle in the global list, the spatial grid or the
ownership map, whereas the collision branch of `updatePlayer` leaves every
segment structure untouched, so a dead vehicle's walls persist (and stay
lethal) until its respawn fires. -/
theorem c3_cleared_on_respawn :
    (∀ (st : GameState) (id : String) (p : Player) (rand : List ℚ)
       (st2 : GameState) (r : Option (Point × ℤ)),
      getPlayer st id = some p →
      respawnPlayer st id rand = (st2, r) →
      (st2.segments.all (fun s => decide (s.playerId ≠ id)) = true ∧
       st2.spatialGrid.cells.all
         (fun kc => kc.2.all (fun s => decide (s.playerId ≠ id))) = true ∧
       st2.segmentOwners.all (fun e => decide (e.2 ≠ id)) = true)) ∧
    (∀ (st : GameState) (id : String) (st2 : GameState) (pos : Point) (cw : Option String),
      updatePlayer st id = (st2, some (.collision pos cw)) →
      st2.segments = st.segments ∧ st2.spatialGrid = st.spatialGrid ∧
      st2.segmentOwners = st.segmentOwners) := by
  constructor
  · intro st id p rand st2 r hg h
    unfold respawnPlayer at h
    split at h
    · rename_i heq
      rw [hg] at heq
      exact absurd heq (by simp)
    · rename_i p2 heq
      rw [Prod.mk.injEq] at h
      obtain ⟨h1, _⟩ := h
      refine ⟨?_, ?_, ?_⟩
      · rw [← h1]
        show ((setPlayer st id _).segments.filter _).all _ = true
        exact all_filter_self _ _
      · rw [← h1]
        show ((setPlayer st id _).spatialGrid.clearPlayerSegments id).cells.all _ = true
        exact clearPlayerSegments_no_owner _ _
      · rw [← h1]
        show ((setPlayer st id _).segmentOwners.filter _).all _ = true
        exact all_filter_self _ _
  · intro st id st2 pos cw h
    rcases updatePlayer_spec st id with ⟨_, heq⟩ | ⟨q, _, _, heq⟩ | ⟨q2, hgq, haq, hrest⟩
    · rw [heq] at h; exact absurd h (by simp)
    · rw [heq] at h; exact absurd h (by simp)
    · rcases hrest with ⟨hcol, heq⟩ | ⟨hcol, heq⟩
      · rw [heq] at h
        rw [Prod.mk.injEq] at h
        obtain ⟨h1, _⟩ := h
        exact ⟨by rw [← h1, applyScore_segments, setPlayer_segments],
               by rw [← h1, applyScore_spatialGrid, setPlayer_spatialGrid],
               by rw [← h1, applyScore_segmentOwners, setPlayer_segmentOwners]⟩
      · rw [heq] at h
        obtain ⟨ns, hns⟩ := moveStep_snd_moved st id q2
          (nextCoord q2.position.x (dirX q2.direction))
          (nextCoord q2.position.z (dirZ q2.direction))
        have hcontra := congrArg Prod.snd h
        rw [hns] at hcontra
        exact absurd hcontra (by simp)

/-- C6: in every reachable state each vehicle's trail is bounded by
`MAX_TRAIL_LENGTH`, and the move branch of `updatePlayer` extends the trail
by the pre-move position, evicting the oldest (front) entry first when the
bound would be exceeded. -/
theorem c6_trail_bound :
    (∀ st, Reachable st →
      st.players.all (fun pr => decide (pr.2.trail.length ≤ MAX_TRAIL_LENGTH)) = true) ∧
    (∀ (st : GameState) (id : String) (p : Player) (st2 : GameState)
       (pos : Point) (d : ℤ) (ns : Option (Point × Point)),
      getPlayer st id = some p →
      updatePlayer st id = (st2, some (.moved pos d ns)) →
      ∃ p2, getPlayer st2 id = some p2 ∧
        p2.trail = (if p.trail = [] ∨ p.trail.getLast? ≠ some p.position then
            (if MAX_TRAIL_LENGTH < (p.trail ++ [p.position]).length then
              (p.trail ++ [p.position]).tail
            else p.trail ++ [p.position])
          else p.trail)) := by
  constructor
  · intro st hst
    have h := playersOk_reachable hst
    unfold playersOk at h
    rw [List.all_eq_true] at h ⊢
    intro pr hmem
    rcases playerOk_spec (h pr hmem) with ⟨_, _, _, _, h5⟩
    exact decide_eq_true h5
  · intro st id p st2 pos d ns hg h
    rcases updatePlayer_spec st id with ⟨hgn, _⟩ | ⟨q, hgq, haq, heq⟩ | ⟨q, hgq, haq, hrest⟩
    · rw [hg] at hgn; exact absurd hgn (by simp)
    · rw [heq] at h; exact absurd h (by simp)
    · rw [hg] at hgq
      cases Option.some.inj hgq
      rcases hrest with ⟨hcol, heq⟩ | ⟨hcol, heq⟩
      · rw [heq] at h
        have hcontra := congrArg Prod.snd h
        exact absurd hcontra (by simp)
      · rw [heq] at h
        unfold moveStep at h
        split at h
        · rename_i hpush
          rw [Prod.mk.injEq] at h
          obtain ⟨h1, _⟩ := h
          refine ⟨{ p with
                    position := Point.mk (nextCoord p.position.x (dirX p.direction))
                      (nextCoord p.position.z (dirZ p.direction)),
                    trail := pushTrail p.trail p.position }, ?_, ?_⟩
          · rw [← h1, getPlayer_addTrailSegment, getPlayer_setPlayer_same]
          · show pushTrail p.trail p.position = _
            rw [if_pos hpush]
            rfl
        · rename_i hpush
          rw [Prod.mk.injEq] at h
          obtain ⟨h1, _⟩ := h
          refine ⟨{ p with
                    position := Point.mk (nextCoord p.position.x (dirX p.direction))
                      (nextCoord p.position.z (dirZ p.direction)) }, ?_, ?_⟩
          · rw [← h1, getPlayer_setPlayer_same]
          · show p.trail = _
            rw [if_neg hpush]

/-- Witness for C6: the trail bound at the reachable overlap state, and the
concrete first move of A pushing `(0, 0)` onto its empty trail. -/
theorem c6_witness :
    stOverlap.players.all (fun pr => decide (pr.2.trail.length ≤ MAX_TRAIL_LENGTH)) = true ∧
    (∃ p2, getPlayer ((updatePlayer stTurnA "A").1) "A" = some p2 ∧
      p2.trail = (if ([] : List Point) = [] ∨ ([] : List Point).getLast? ≠ some (⟨0, 0⟩ : Point) then
          (if MAX_TRAIL_LENGTH < (([] : List Point) ++ [(⟨0, 0⟩ : Point)]).length then
            (([] : List Point) ++ [(⟨0, 0⟩ : Point)]).tail
          else ([] : List Point) ++ [(⟨0, 0⟩ : Point)])
        else ([] : List Point))) :=
  ⟨c6_trail_bound.1 stOverlap reachable_stOverlap,
   c6_trail_bound.2 stTurnA "A" ⟨"A", "ua", ⟨0, 0⟩, "red", 1, [], true, 0⟩
     ((updatePlayer stTurnA "A").1) ⟨1, 0⟩ 1 (some (⟨0, 0⟩, ⟨1, 0⟩))
     (by with_unfolding_all decide) (by with_unfolding_all decide)⟩

/-- C7 (amended): in every reachable state the position coordinates are
integers (denominator 1 as rationals) and the facing direction, in quarter
turns, is an integer in [−3, 3] — i.e. a multiple of π/2 strictly inside
(−2π, 2π).  (The original claim's range {0, π/2, π, 3π/2} ⊆ [0, 2π) is
refuted by `c7_direction_counterexample`: the JS remainder keeps the sign,
so right turns give negative angles.) -/
theorem c7_grid_lock_amended (st : GameState) (hst : Reachable st) :
    st.players.all (fun pr =>
      decide (pr.2.position.x.den = 1) && decide (pr.2.position.z.den = 1) &&
      decide (-3 ≤ pr.2.direction) && decide (pr.2.direction ≤ 3)) = true := by
  have h := playersOk_reachable hst
  unfold playersOk at h
  rw [List.all_eq_true] at h ⊢
  intro pr hmem
  rcases playerOk_spec (h pr hmem) with ⟨h1, h2, h3, h4, _⟩
  simp only [Bool.and_eq_true, decide_eq_true_eq]
  exact ⟨⟨⟨h1, h2⟩, h3⟩, h4⟩

/-- A joins and turns right once: the stored direction is −π/2 (−1 quarter
turn), reachable in two steps. -/
def stTurnRightA : GameState := changeDirection stJoinA "A" TurnDir.right

/-- Counterexample to C7 as stated: after a single right turn the reachable
direction is −1 quarter turn (−π/2), which is not one of {0, π/2, π, 3π/2}
(quarter turns {0, 1, 2, 3}) and not in [0, 2π) (its quarter-turn value is
negative): the JS remainder normalization keeps the dividend's sign. -/
theorem c7_direction_counterexample :
    Reachable stTurnRightA ∧
    (getPlayer stTurnRightA "A").map (fun p => p.direction) = some (-1) ∧
    ((-1 : ℤ) ∉ ([0, 1, 2, 3] : List ℤ)) ∧ ¬ (0 ≤ (-1 : ℤ)) :=
  ⟨Reachable.turn _ _ _ (Reachable.join _ _ _ _ _ Reachable.init),
   by with_unfolding_all decide, by decide, by decide⟩

/-- Witness for C7's amended theorem at the reachable crash state. -/
theorem c7_witness :
    stCrash.players.all (fun pr =>
      decide (pr.2.position.x.den = 1) && decide (pr.2.position.z.den = 1) &&
      decide (-3 ≤ pr.2.direction) && decide (pr.2.direction ≤ 3)) = true :=
  c7_grid_lock_amended stCrash reachable_stCrash

/-- C8: `addTrailSegment` appends the new segment (tagged with the fresh
creation sequence number) at the end of the oldest-first global list,
registers it in the grid and the ownership map; exactly when the appended
list exceeds `MAX_TRAIL_LENGTH × playerCount`, the single oldest (front)
segment is popped from the list, removed from the spatial index, and erased
from the ownership map. -/
theorem c8_global_cap (st : GameState) (pid : String) (fx fz tx tz : ℚ) :
    (addTrailSegment st pid fx fz tx tz).2 = ⟨st.nextSid, pid, ⟨fx, fz⟩, ⟨tx, tz⟩⟩ ∧
    (MAX_TRAIL_LENGTH * st.players.length <
        (st.segments ++ [(⟨st.nextSid, pid, ⟨fx, fz⟩, ⟨tx, tz⟩⟩ : Segment)]).length →
      ∃ oldest rest,
        st.segments ++ [(⟨st.nextSid, pid, ⟨fx, fz⟩, ⟨tx, tz⟩⟩ : Segment)] = oldest :: rest ∧
        (addTrailSegment st pid fx fz tx tz).1.segments = rest ∧
        (addTrailSegment st pid fx fz tx tz).1.spatialGrid =
          (st.spatialGrid.addSegment ⟨st.nextSid, pid, ⟨fx, fz⟩, ⟨tx, tz⟩⟩).removeSegment oldest ∧
        (addTrailSegment st pid fx fz tx tz).1.segmentOwners =
          (st.segmentOwners ++ [(st.nextSid, pid)]).filter (fun e => decide (e.1 ≠ oldest.sid))) ∧
    (¬ MAX_TRAIL_LENGTH * st.players.length <
        (st.segments ++ [(⟨st.nextSid, pid, ⟨fx, fz⟩, ⟨tx, tz⟩⟩ : Segment)]).length →
      (addTrailSegment st pid fx fz tx tz).1.segments =
        st.segments ++ [⟨st.nextSid, pid, ⟨fx, fz⟩, ⟨tx, tz⟩⟩] ∧
      (addTrailSegment st pid fx fz tx tz).1.spatialGrid =
        st.spatialGrid.addSegment ⟨st.nextSid, pid, ⟨fx, fz⟩, ⟨tx, tz⟩⟩ ∧
      (addTrailSegment st pid fx fz tx tz).1.segmentOwners =
        st.segmentOwners ++ [(st.nextSid, pid)]) := by
  by_cases hcap : MAX_TRAIL_LENGTH * st.players.length <
      (st.segments ++ [(⟨st.nextSid, pid, ⟨fx, fz⟩, ⟨tx, tz⟩⟩ : Segment)]).length
  · cases hseg : st.segments ++ [(⟨st.nextSid, pid, ⟨fx, fz⟩, ⟨tx, tz⟩⟩ : Segment)] with
    | nil => exact absurd hseg (by simp)
    | cons o r =>
      have hadd : addTrailSegment st pid fx fz tx tz =
          ({ st with segments := r,
                     spatialGrid :=
                       (st.spatialGrid.addSegment ⟨st.nextSid, pid, ⟨fx, fz⟩, ⟨tx, tz⟩⟩).removeSegment o,
                     segmentOwners :=
                       (st.segmentOwners ++ [(st.nextSid, pid)]).filter (fun e => decide (e.1 ≠ o.sid)),
                     nextSid := st.nextSid + 1 },
           ⟨st.nextSid, pid, ⟨fx, fz⟩, ⟨tx, tz⟩⟩) := by
        simp only [addTrailSegment]
        rw [if_pos hcap, hseg]
      rw [hseg] at hcap
      rw [hadd]
      exact ⟨rfl, fun _ => ⟨o, r, rfl, rfl, rfl, rfl⟩, fun hc => absurd hcap hc⟩
  · have hadd : addTrailSegment st pid fx fz tx tz =
        ({ st with segments := st.segments ++ [⟨st.nextSid, pid, ⟨fx, fz⟩, ⟨tx, tz⟩⟩],
                   spatialGrid := st.spatialGrid.addSegment ⟨st.nextSid, pid, ⟨fx, fz⟩, ⟨tx, tz⟩⟩,
                   segmentOwners := st.segmentOwners ++ [(st.nextSid, pid)],
                   nextSid := st.nextSid + 1 },
         ⟨st.nextSid, pid, ⟨fx, fz⟩, ⟨tx, tz⟩⟩) := by
      simp only [addTrailSegment]
      rw [if_neg hcap]
    rw [hadd]
    exact ⟨rfl, fun hc => absurd hc hcap, fun _ => ⟨rfl, rfl, rfl⟩⟩

/-- A one-player state already holding 50 segments (the soft global cap for
one player): the next append must evict. -/
def stEvict : GameState :=
  ⟨[("A", ⟨"A", "u", ⟨0, 0⟩, "red", 0, [], true, 0⟩)],
   (List.range 50).map (fun i => ⟨i, "A", ⟨(i : ℚ), 0⟩, ⟨(i : ℚ) + 1, 0⟩⟩),
   (List.range 50).map (fun i => (i, "A")),
   ⟨[]⟩, 50⟩

/-- Witness for C8: appending the 51st segment to `stEvict` pops exactly
the oldest segment from the front, the grid and the ownership map. -/
theorem c8_witness :
    (addTrailSegment stEvict "A" 0 5 1 5).2 = ⟨50, "A", ⟨0, 5⟩, ⟨1, 5⟩⟩ ∧
    (∃ oldest rest,
      stEvict.segments ++ [(⟨50, "A", ⟨0, 5⟩, ⟨1, 5⟩⟩ : Segment)] = oldest :: rest ∧
      (addTrailSegment stEvict "A" 0 5 1 5).1.segments = rest ∧
      (addTrailSegment stEvict "A" 0 5 1 5).1.spatialGrid =
        (stEvict.spatialGrid.addSegment ⟨50, "A", ⟨0, 5⟩, ⟨1, 5⟩⟩).removeSegment oldest ∧
      (addTrailSegment stEvict "A" 0 5 1 5).1.segmentOwners =
        (stEvict.segmentOwners ++ [(50, "A")]).filter (fun e => decide (e.1 ≠ oldest.sid))) := by
  have h := c8_global_cap stEvict "A" 0 5 1 5
  exact ⟨h.1, h.2.1 (by with_unfolding_all decide)⟩

/-- B's player record in `stCrash` (dead, trail intact, score 0). -/
def pBCrash : Player :=
  ⟨"B", "ub", ⟨1, 3⟩, "blue", -1,
   [⟨7, 3⟩, ⟨6, 3⟩, ⟨5, 3⟩, ⟨4, 3⟩, ⟨3, 3⟩, ⟨2, 3⟩], false, 0⟩

/-- The random stream used to respawn B after the crash: the first sample
`(-90, -90)` is far from everything and accepted at once. -/
def randRespawn : List ℚ := [(1 : ℚ)/38, (1 : ℚ)/38]

/-- Witness for C10: respawning the dead B of the crash run. -/
theorem c10_witness :
    getPlayer ((respawnPlayer stCrash "B" randRespawn).1) "B" =
      some { pBCrash with position := findSafePosition stCrash randRespawn, direction := 0,
                          trail := [], active := true } ∧
    ((respawnPlayer stCrash "B" randRespawn).1).segments =
      stCrash.segments.filter (fun s => decide (s.playerId ≠ "B")) ∧
    scoreOf ((respawnPlayer stCrash "B" randRespawn).1) "B" = some pBCrash.score := by
  have hmain := c10_respawn_frame stCrash "B" pBCrash randRespawn
    ((respawnPlayer stCrash "B" randRespawn).1) ((respawnPlayer stCrash "B" randRespawn).2)
    (by with_unfolding_all decide) rfl
  exact ⟨hmain.1, hmain.2.2.2.1, hmain.2.2.1⟩

/-- Witness for C3's amended theorem: respawning the dead B of the crash
run clears all of B's segments, and the boundary death in `stTiny` leaves
the segment structures untouched. -/
theorem c3_witness :
    ((respawnPlayer stCrash "B" randRespawn).1.segments.all
       (fun s => decide (s.playerId ≠ "B")) = true ∧
     (respawnPlayer stCrash "B" randRespawn).1.spatialGrid.cells.all
       (fun kc => kc.2.all (fun s => decide (s.playerId ≠ "B"))) = true ∧
     (respawnPlayer stCrash "B" randRespawn).1.segmentOwners.all
       (fun e => decide (e.2 ≠ "B")) = true) ∧
    (((updatePlayer stTiny "A").1).segments = stTiny.segments ∧
     ((updatePlayer stTiny "A").1).spatialGrid = stTiny.spatialGrid ∧
     ((updatePlayer stTiny "A").1).segmentOwners = stTiny.segmentOwners) :=
  ⟨c3_cleared_on_respawn.1 stCrash "B" pBCrash randRespawn
     ((respawnPlayer stCrash "B" randRespawn).1) ((respawnPlayer stCrash "B" randRespawn).2)
     (by with_unfolding_all decide) rfl,
   c3_cleared_on_respawn.2 stTiny "A" ((updatePlayer stTiny "A").1) ⟨100, 0⟩ none
     (by with_unfolding_all decide)⟩
